import Mathlib

/-!
# Donut: level assembly, region command scan and texture decoding

A shallow embedding of `src/Level.cpp`, `src/Entity.cpp` and
`src/Pure3D/Loaders/TextureLoader.cpp`, followed by the properties
established about them.

Conventions of the embedding

* A C++ exception or a failed `assert` is a value of `Err`; code that can be
  left that way returns `Except Err _`, or a pair of the state reached and
  the pending failure when the state reached matters.
* `std::vector` is `List`; `v.at(i)` is `vecAt v i`.
* `std::map<std::string, size_t>` is an association list with unique keys
  (`mapInsert`, `mapAt`); only `insert`, `size` and `at` are used by the code.
* `glm::mat4` values are only moved around, never computed with; they are
  carried as `Mat4`.
* Generated loaders (`P3D::<Kind>::Load`), `P3DUtil::GetDrawables`, the file
  system and the PNG library are not part of the three files; they are
  parameters (`Env`, `PngLib`).
-/

set_option autoImplicit false
set_option maxRecDepth 100000

namespace Donut

/-- Ways in which a call is left without returning normally. -/
inductive Err where
  /-- Thrown by `vector::at`, `map::at`, `string::at`, `string::substr`: `std::out_of_range`. -/
  | outOfRange
  /-- A failed `assert(...)`. -/
  | assertionFailed
  /-- The stream ended before the bytes asked for. -/
  | truncatedInput
  /-- A seek target outside the stream. -/
  | invalidSeek
  /-- The cursor is past the declared end of the chunk being closed. -/
  | chunkOverrun
  /-- The `EndChunk` call found no open frame. -/
  | emptyFrameStack
  /-- The PNG library reported an error and jumped back to the `setjmp` of
  `LoadImage`, whose result the code ignores: the code goes on from there with the
  library in its error state. The model stops at the jump and says nothing about
  the run after it. -/
  | pngLongjmp
  /-- Thrown by `std::filesystem::exists` when the status of the path cannot be
  read: `std::filesystem::filesystem_error`. -/
  | filesystemError
  /-- The iteration budget of a modelled loop was used up. -/
  | outOfFuel
  deriving DecidableEq, Repr

/-- Carrier of `glm::mat4`: sixteen scalars that the code only copies. -/
structure Mat4 where
  cells : List Int
  deriving DecidableEq, Repr

/-- Checked element access `v.at(i)` of `std::vector`. -/
def vecAt {α : Type} (v : List α) (i : Nat) : Except Err α :=
  match v[i]? with
  | some a => .ok a
  | none => .error .outOfRange

/-- Carrier of `std::map<std::string, size_t>`: entries with pairwise different keys. -/
abbrev StdMap := List (String × Nat)

/-- Member `std::map::insert`: the entry is added only when its key is not yet present. -/
def mapInsert (m : StdMap) (kv : String × Nat) : StdMap :=
  if m.any (fun e => e.1 == kv.1) then m else m ++ [kv]

/-- Member `std::map::size`. -/
def mapSize (m : StdMap) : Nat := m.length

/-- Checked lookup `m.at(k)` of `std::map`. -/
def mapAt (m : StdMap) (k : String) : Except Err Nat :=
  match m.find? (fun e => e.1 == k) with
  | some e => .ok e.2
  | none => .error .outOfRange

namespace P3D

/-- The enumeration `P3D::ChunkType`: the twelve enumerators named by `Level::LoadP3D`,
and every other chunk id. -/
inductive ChunkType where
  | Shader
  | Texture
  | Set
  | StaticEntity
  | StaticPhysics
  | InstancedStaticPhysics
  | DynamicPhysics
  | AnimDynamicPhysics
  | Intersect
  | WorldSphere
  | Locator2
  | FenceWrapper
  | other (id : Nat)
  deriving DecidableEq, Repr

/-- A child of the root of a P3D file: its type tag and its raw bytes. -/
structure Chunk where
  type : ChunkType
  data : List Nat
  deriving DecidableEq, Repr

/-- Accessor `P3DChunk::GetType`. -/
def Chunk.GetType (c : Chunk) : ChunkType := c.type

structure Shader where
  name : String
  deriving DecidableEq, Repr

structure Texture where
  name : String
  deriving DecidableEq, Repr

structure Set where
  name : String
  deriving DecidableEq, Repr

structure Mesh where
  name : String
  deriving DecidableEq, Repr

/-- Accessor `Mesh::GetName`. -/
def Mesh.GetName (m : Mesh) : String := m.name

structure StaticEntity where
  name : String
  mesh : Mesh
  deriving DecidableEq, Repr

structure CollisionVolume where
  id : Nat
  deriving DecidableEq, Repr

/-- What `Level::LoadP3D` reads of a `P3D::StaticPhysics`:
`GetCollisionObject()->GetVolume()`, `none` for `nullptr`. -/
structure StaticPhysics where
  volume : Option CollisionVolume
  deriving DecidableEq, Repr

structure SceneGraphDrawable where
  name : String
  deriving DecidableEq, Repr

/-- Accessor `SceneGraphDrawable::GetName`. -/
def SceneGraphDrawable.GetName (d : SceneGraphDrawable) : String := d.name

structure InstanceList where
  id : Nat
  deriving DecidableEq, Repr

structure InstancedStaticPhysics where
  instanceList : InstanceList
  meshes : List Mesh
  deriving DecidableEq, Repr

structure DynamicPhysics where
  instanceList : InstanceList
  meshes : List Mesh
  deriving DecidableEq, Repr

structure AnimObjectWrapper where
  id : Nat
  deriving DecidableEq, Repr

structure AnimDynamicPhysics where
  instanceList : InstanceList
  animObjectWrapper : AnimObjectWrapper
  deriving DecidableEq, Repr

structure Intersect where
  id : Nat
  deriving DecidableEq, Repr

structure WorldSphere where
  id : Nat
  deriving DecidableEq, Repr

structure Locator2 where
  name : String
  deriving DecidableEq, Repr

structure Fence where
  id : Nat
  deriving DecidableEq, Repr

/-- What `Level::LoadP3D` reads of a `P3D::FenceWrapper`: `GetFence()`. -/
structure FenceWrapper where
  fence : Fence
  deriving DecidableEq, Repr

end P3D

/-- Everything `Level.cpp` calls that lives outside the three files: the file
system, the P3D file reader, the generated chunk loaders and
`P3DUtil::GetDrawables`. -/
structure Env where
  /-- Whether the path names an existing file. -/
  pathExists : String → Bool
  /-- Whether reading the status of the path fails for another reason than the
  absence of the file (a file name too long, a directory that cannot be searched). -/
  statusError : String → Bool
  /-- The children of the root of `P3D::P3DFile(path)`. -/
  rootChildren : String → List P3D.Chunk
  Shader_Load : P3D.Chunk → P3D.Shader
  Texture_Load : P3D.Chunk → P3D.Texture
  Set_Load : P3D.Chunk → P3D.Set
  StaticEntity_Load : P3D.Chunk → P3D.StaticEntity
  StaticPhysics_Load : P3D.Chunk → P3D.StaticPhysics
  InstancedStaticPhysics_Load : P3D.Chunk → P3D.InstancedStaticPhysics
  DynamicPhysics_Load : P3D.Chunk → P3D.DynamicPhysics
  AnimDynamicPhysics_Load : P3D.Chunk → P3D.AnimDynamicPhysics
  Intersect_Load : P3D.Chunk → P3D.Intersect
  WorldSphere_Load : P3D.Chunk → P3D.WorldSphere
  Locator2_Load : P3D.Chunk → P3D.Locator2
  FenceWrapper_Load : P3D.Chunk → P3D.FenceWrapper
  /-- The two output vectors of `P3DUtil::GetDrawables`. -/
  GetDrawables : P3D.InstanceList → List P3D.SceneGraphDrawable × List Mat4

/-- Library call `std::filesystem::exists(path)`: it throws
`std::filesystem::filesystem_error` when the status of the path cannot be read, and
tells whether the file exists otherwise. -/
def Env.fileExists (env : Env) (path : String) : Except Err Bool :=
  if env.statusError path then .error .filesystemError else .ok (env.pathExists path)

/-- Render-side mesh, built from a decoded `P3D::Mesh`. -/
structure Mesh where
  source : P3D.Mesh
  deriving DecidableEq, Repr

/-- Class `Donut::StaticEntity` (`Entity.cpp`). -/
structure StaticEntity where
  _name : String
  _mesh : Mesh
  deriving DecidableEq, Repr

/-- Constructor `StaticEntity::StaticEntity(const P3D::StaticEntity&)`. -/
def StaticEntity.ofP3D (entity : P3D.StaticEntity) : StaticEntity :=
  { _name := entity.name, _mesh := Mesh.mk entity.mesh }

/-- Render-side world sphere, built from a decoded `P3D::WorldSphere`. -/
structure WorldSphere where
  source : P3D.WorldSphere
  deriving DecidableEq, Repr

/-- What a `CompositeModel` is built from. -/
inductive CompositeModelSource where
  /-- From `CompositeModel::LoadP3D(file)`. -/
  | p3dFile (file : String)
  /-- From `CompositeModel_AnimObjectWrapper(wrapper)`. -/
  | animObjectWrapper (wrapper : P3D.AnimObjectWrapper)
  deriving DecidableEq, Repr

/-- Class `CompositeModel`: what it was built from and its transform
(`none` until `SetTransform` is called). -/
structure CompositeModel where
  source : CompositeModelSource
  _transform : Option Mat4
  deriving DecidableEq, Repr

/-- Constructor `CompositeModel(CompositeModel_AnimObjectWrapper(wrapper))`. -/
def CompositeModel.ofAnimObjectWrapper (wrapper : P3D.AnimObjectWrapper) : CompositeModel :=
  { source := .animObjectWrapper wrapper, _transform := none }

/-- Member `CompositeModel::SetTransform`. -/
def CompositeModel.SetTransform (m : CompositeModel) (transform : Mat4) : CompositeModel :=
  { m with _transform := some transform }

/-- The registrations received by the resource manager, in call order. -/
structure ResourceManager where
  shaders : List P3D.Shader
  textures : List P3D.Texture
  sets : List P3D.Set
  deriving DecidableEq, Repr

def ResourceManager.LoadShader (rm : ResourceManager) (s : P3D.Shader) : ResourceManager :=
  { rm with shaders := rm.shaders ++ [s] }

def ResourceManager.LoadTexture (rm : ResourceManager) (t : P3D.Texture) : ResourceManager :=
  { rm with textures := rm.textures ++ [t] }

def ResourceManager.LoadSet (rm : ResourceManager) (s : P3D.Set) : ResourceManager :=
  { rm with sets := rm.sets ++ [s] }

/-- The physics sink: what was handed to `WorldPhysics`, in call order. -/
structure WorldPhysics where
  collisionVolumes : List P3D.CollisionVolume
  intersects : List P3D.Intersect
  fences : List P3D.Fence
  deriving DecidableEq, Repr

def WorldPhysics.AddCollisionVolume (p : WorldPhysics) (v : P3D.CollisionVolume) : WorldPhysics :=
  { p with collisionVolumes := p.collisionVolumes ++ [v] }

def WorldPhysics.AddIntersect (p : WorldPhysics) (i : P3D.Intersect) : WorldPhysics :=
  { p with intersects := p.intersects ++ [i] }

def WorldPhysics.AddP3DFence (p : WorldPhysics) (f : P3D.Fence) : WorldPhysics :=
  { p with fences := p.fences ++ [f] }

/-- The state `Level::LoadP3D` can touch: the members of the `Level`, the
physics object `_worldPhysics` points to, the resource manager of the `Game`
singleton, the local vector `locators`, and the lines written to `std::cout`. -/
structure Level where
  _entities : List StaticEntity
  _compositeModels : List CompositeModel
  _worldSphere : Option WorldSphere
  _worldPhysics : WorldPhysics
  resourceManager : ResourceManager
  locators : List P3D.Locator2
  cout : List String
  deriving DecidableEq, Repr

/-- The loop `for (const auto& mesh : meshes) meshesNameIndex.insert({ mesh->GetName(),
meshesNameIndex.size() })`, started from the map `m`. -/
def buildMeshesNameIndex (meshes : List P3D.Mesh) (m : StdMap) : StdMap :=
  meshes.foldl (fun acc mesh => mapInsert acc (mesh.GetName, mapSize acc)) m

/-- The expression `meshes.at(meshesNameIndex.at(meshName))`. -/
def resolveMesh (meshes : List P3D.Mesh) (meshesNameIndex : StdMap) (meshName : String) :
    Except Err P3D.Mesh :=
  match mapAt meshesNameIndex meshName with
  | .error e => .error e
  | .ok idx => vecAt meshes idx

/-- The loop `for (size_t i = 0; i < drawables.size(); ++i)` of the
`InstancedStaticPhysics` and `DynamicPhysics` cases, with `remaining`
iterations left from index `i`. The body only reads; the entity construction
is commented out in the source. -/
def resolveInstances (drawables : List P3D.SceneGraphDrawable) (transforms : List Mat4)
    (meshes : List P3D.Mesh) (meshesNameIndex : StdMap) : (remaining i : Nat) → Except Err Unit
  | 0, _ => .ok ()
  | remaining + 1, i =>
    match vecAt drawables i with
    | .error e => .error e
    | .ok drawable =>
      match vecAt transforms i with
      | .error e => .error e
      | .ok _ =>
        match resolveMesh meshes meshesNameIndex drawable.GetName with
        | .error e => .error e
        | .ok _ => resolveInstances drawables transforms meshes meshesNameIndex remaining (i + 1)

/-- The loop `for (size_t i = 0; i < drawables.size(); ++i)` of the
`AnimDynamicPhysics` case, with `remaining` iterations left from index `i`:
the composite-model list reached, and the exception that ended the loop if
one did. -/
def placeAnimInstances (drawables : List P3D.SceneGraphDrawable) (transforms : List Mat4)
    (animObjectWrapper : P3D.AnimObjectWrapper) :
    (remaining i : Nat) → List CompositeModel → List CompositeModel × Option Err
  | 0, _, models => (models, none)
  | remaining + 1, i, models =>
    match vecAt drawables i with
    | .error e => (models, some e)
    | .ok _ =>
      match vecAt transforms i with
      | .error e => (models, some e)
      | .ok transform =>
        let compositeModel := CompositeModel.ofAnimObjectWrapper animObjectWrapper
        let compositeModel := compositeModel.SetTransform transform
        placeAnimInstances drawables transforms animObjectWrapper remaining (i + 1)
          (models ++ [compositeModel])

/-- The label `default: break;` of the switch of `Level::LoadP3D`: nothing is done. -/
def Level.LoadP3D_default (self : Level) : Level × Option Err := (self, none)

/-- The body of the `switch (chunk->GetType())` of `Level::LoadP3D` for one
root chunk: the state reached, and the exception leaving the function if one
was thrown. -/
def Level.LoadP3D_chunk (env : Env) (self : Level) (chunk : P3D.Chunk) : Level × Option Err :=
  match chunk.GetType with
  | .Shader =>
    ({ self with resourceManager := self.resourceManager.LoadShader (env.Shader_Load chunk) }, none)
  | .Texture =>
    ({ self with resourceManager := self.resourceManager.LoadTexture (env.Texture_Load chunk) }, none)
  | .Set =>
    ({ self with resourceManager := self.resourceManager.LoadSet (env.Set_Load chunk) }, none)
  | .StaticEntity =>
    ({ self with _entities := self._entities ++ [StaticEntity.ofP3D (env.StaticEntity_Load chunk)] },
      none)
  | .StaticPhysics =>
    let ent := env.StaticPhysics_Load chunk
    match ent.volume with
    | some volume => ({ self with _worldPhysics := self._worldPhysics.AddCollisionVolume volume }, none)
    | none => (self, none)
  | .InstancedStaticPhysics =>
    let staticPhys := env.InstancedStaticPhysics_Load chunk
    let (drawables, transforms) := env.GetDrawables staticPhys.instanceList
    let meshes := staticPhys.meshes
    let meshesNameIndex := buildMeshesNameIndex meshes []
    match resolveInstances drawables transforms meshes meshesNameIndex drawables.length 0 with
    | .error e => (self, some e)
    | .ok _ => (self, none)
  | .DynamicPhysics =>
    let dynaPhys := env.DynamicPhysics_Load chunk
    let (drawables, transforms) := env.GetDrawables dynaPhys.instanceList
    let meshes := dynaPhys.meshes
    let meshesNameIndex := buildMeshesNameIndex meshes []
    match resolveInstances drawables transforms meshes meshesNameIndex drawables.length 0 with
    | .error e => (self, some e)
    | .ok _ => (self, none)
  | .AnimDynamicPhysics =>
    let dynaPhys := env.AnimDynamicPhysics_Load chunk
    let (drawables, transforms) := env.GetDrawables dynaPhys.instanceList
    let animObjectWrapper := dynaPhys.animObjectWrapper
    let (models, thrown) :=
      placeAnimInstances drawables transforms animObjectWrapper drawables.length 0
        self._compositeModels
    ({ self with _compositeModels := models }, thrown)
  | .Intersect =>
    let intersect := env.Intersect_Load chunk
    ({ self with _worldPhysics := self._worldPhysics.AddIntersect intersect }, none)
  | .WorldSphere =>
    ({ self with _worldSphere := some (WorldSphere.mk (env.WorldSphere_Load chunk)) }, none)
  | .Locator2 =>
    ({ self with locators := self.locators ++ [env.Locator2_Load chunk] }, none)
  | .FenceWrapper =>
    let fence := env.FenceWrapper_Load chunk
    let self := { self with _worldPhysics := self._worldPhysics.AddP3DFence fence.fence }
    -- no `break` here: control falls through into `default`
    Level.LoadP3D_default self
  | .other _ => Level.LoadP3D_default self

/-- The loop `for (const auto& chunk : root.GetChildren())`: an exception ends
it, and the state is the one reached when it was thrown. -/
def Level.LoadP3D_chunks (env : Env) : List P3D.Chunk → Level → Level × Option Err
  | [], self => (self, none)
  | chunk :: rest, self =>
    match Level.LoadP3D_chunk env self chunk with
    | (self, none) => Level.LoadP3D_chunks env rest self
    | (self, some e) => (self, some e)

/-- Member `Level::LoadP3D(filename)`: the state on leaving the function, and
the exception that left it if one did. -/
def Level.LoadP3D (env : Env) (self : Level) (filename : String) : Level × Option Err :=
  let fullpath := "./art/" ++ filename
  match env.fileExists fullpath with
  | .error e => (self, some e)
  | .ok false =>
    ({ self with cout := self.cout ++ ["Level not found: " ++ filename ++ "\n"] }, none)
  | .ok true =>
    let self := { self with cout := self.cout ++ ["Loading level: " ++ filename ++ "\n"] }
    let self := { self with locators := [] }
    Level.LoadP3D_chunks env (env.rootChildren fullpath) self

/-! ## `Level::DynaLoadData`

A `std::string` is a `List Char`. Positions and lengths are `size_t` values
bounded by the length of the string, so they are plain natural numbers. -/

/-- The search of `find_first_of` through the characters `s`, the first of which has
index `i`: the index of the first character that is one of `chars`, `none` for `npos`. -/
def find_first_of_from (chars : List Char) : List Char → Nat → Option Nat
  | [], _ => none
  | c :: s, i => if chars.contains c then some i else find_first_of_from chars s (i + 1)

/-- Member `std::string::find_first_of(chars, pos)`: the first index at or after `pos`
holding one of `chars`, `none` for `npos`. -/
def find_first_of (s : List Char) (chars : List Char) (pos : Nat) : Option Nat :=
  find_first_of_from chars (s.drop pos) pos

/-- Member `std::string::substr(pos, n)`: throws `std::out_of_range` when `pos > size()`. -/
def substr (s : List Char) (pos n : Nat) : Except Err (List Char) :=
  if pos > s.length then .error .outOfRange else .ok ((s.drop pos).take n)

/-- The four local vectors of `Level::DynaLoadData`. -/
structure DynaLists where
  regionsLoad : List (List Char)
  regionsUnload : List (List Char)
  interiorsLoad : List (List Char)
  interiorsUnload : List (List Char)
  deriving DecidableEq, Repr

/-- The `switch (dynaLoadData.at(pos))` of `Level::DynaLoadData`, applied to the
character `c` found at `pos`. -/
def DynaLists.classify (lists : DynaLists) (c : Char) (file : List Char) : DynaLists :=
  if c = ';' then { lists with regionsLoad := lists.regionsLoad ++ [file] }
  else if c = ':' then { lists with regionsUnload := lists.regionsUnload ++ [file] }
  else if c = '@' then { lists with interiorsLoad := lists.interiorsLoad ++ [file] }
  else if c = '$' then { lists with interiorsUnload := lists.interiorsUnload ++ [file] }
  else lists

/-- The `while` loop of `Level::DynaLoadData`, started at `prev` with the lists
filled so far; `fuel` bounds the number of evaluations of the loop condition. -/
def Level.DynaLoadData_scan (dynaLoadData : List Char) :
    (fuel prev : Nat) → DynaLists → Except Err DynaLists
  | 0, _, _ => .error .outOfFuel
  | fuel + 1, prev, lists =>
    match find_first_of dynaLoadData [';', ':', '@', '$'] prev with
    | none => .ok lists
    | some pos =>
      match substr dynaLoadData prev (pos - prev) with
      | .error e => .error e
      | .ok file =>
        match vecAt dynaLoadData pos with
        | .error e => .error e
        | .ok c => Level.DynaLoadData_scan dynaLoadData fuel (pos + 1) (lists.classify c file)

/-- The lists `Level::DynaLoadData` has built when its `while` loop ends. Every
evaluation of the loop condition but the last moves `prev` past one more
character, so `size() + 1` evaluations are allowed for. -/
def Level.DynaLoadData_lists (dynaLoadData : List Char) : Except Err DynaLists :=
  Level.DynaLoadData_scan dynaLoadData (dynaLoadData.length + 1) 0 ⟨[], [], [], []⟩

/-- Member `Level::loadRegion`. -/
def Level.loadRegion (self : Level) (filename : List Char) : Level :=
  { self with cout := self.cout ++ ["load region: " ++ String.mk filename ++ "\n"] }

/-- Member `Level::unloadRegion`. -/
def Level.unloadRegion (self : Level) (filename : List Char) : Level :=
  { self with cout := self.cout ++ ["unload region: " ++ String.mk filename ++ "\n"] }

/-- Member `Level::DynaLoadData`: the scan, then `unloadRegion` for every region to
unload, then `loadRegion` for every region to load. -/
def Level.DynaLoadData (self : Level) (dynaLoadData : List Char) : Except Err Level :=
  match Level.DynaLoadData_lists dynaLoadData with
  | .error e => .error e
  | .ok lists =>
    let self := lists.regionsUnload.foldl Level.unloadRegion self
    let self := lists.regionsLoad.foldl Level.loadRegion self
    .ok self

/-! ### The classification of tokens, as the region command string is described -/

/-- The four separator characters. -/
def isSeparator (c : Char) : Bool := c = ';' || c = ':' || c = '@' || c = '$'

/-- Every occurrence of a separator in `s`, left to right: its position and the
character there. -/
def separatorOccurrences (s : List Char) : List (Nat × Char) :=
  s.enum.filter (fun pc => isSeparator pc.2)

/-- Where the text of each token starts: at the start of `s` for the first
separator, right after the previous separator for the others. -/
def tokenStarts (s : List Char) : List Nat :=
  0 :: (separatorOccurrences s).map (fun pc => pc.1 + 1)

/-- One token per separator occurrence, left to right: the separator, and the text
between the previous separator (or the start of `s`) and it. -/
def separatedTokens (s : List Char) : List (Char × List Char) :=
  List.zipWith (fun start pc => (pc.2, (s.drop start).take (pc.1 - start)))
    (tokenStarts s) (separatorOccurrences s)

/-- The texts of the tokens ended by the separator `c`, left to right. -/
def tokensEndedBy (c : Char) (s : List Char) : List (List Char) :=
  ((separatedTokens s).filter (fun t => t.1 = c)).map (fun t => t.2)

/-- The tokens of the characters `s` read after the separator-free text `current`:
an auxiliary, character-by-character view of `separatedTokens`. -/
def tokensAfter : List Char → List Char → List (Char × List Char)
  | [], _ => []
  | c :: s, current =>
    if isSeparator c then (c, current) :: tokensAfter s [] else tokensAfter s (current ++ [c])

/-! ## `ChunkFile`

The class `ChunkFile` is used by `TextureLoader.cpp` but defined elsewhere. It
is modelled after the description of the chunk cursor: a byte source with a
position and a stack of open chunk frames. Bytes are natural numbers below 256. -/

/-- Modelled from the spec: a frame of the cursor's stack, made by `BeginChunk`
(start offset of the chunk's payload, declared length of the payload). -/
structure ChunkFrame where
  start : Nat
  declaredLength : Nat
  deriving DecidableEq, Repr

/-- Modelled from the spec: the class `ChunkFile`, which is missing from the
source files: the byte source, the position of the cursor in it, and the
stack of open chunk frames, innermost first. -/
structure ChunkFile where
  bytes : List Nat
  position : Nat
  frames : List ChunkFrame
  deriving DecidableEq, Repr

/-- Modelled from the spec: the bulk read `Read(buffer, length)` of the missing
`ChunkFile`: the next `length` bytes, or `TruncatedInputError` when fewer remain. -/
def ChunkFile.ReadBytes (file : ChunkFile) (length : Nat) : Except Err (List Nat × ChunkFile) :=
  if file.position + length ≤ file.bytes.length then
    .ok ((file.bytes.drop file.position).take length,
      { file with position := file.position + length })
  else .error .truncatedInput

/-- The value of four bytes read as a little-endian `uint32_t`. -/
def u32OfBytes (b : List Nat) : Nat :=
  b.getD 0 0 % 256 + 256 * (b.getD 1 0 % 256) + 65536 * (b.getD 2 0 % 256)
    + 16777216 * (b.getD 3 0 % 256)

/-- Modelled from the spec: the scalar read `Read<uint32_t>()` of the missing
`ChunkFile`: four bytes, little-endian. -/
def ChunkFile.ReadU32 (file : ChunkFile) : Except Err (Nat × ChunkFile) :=
  match file.ReadBytes 4 with
  | .error e => .error e
  | .ok (b, file) => .ok (u32OfBytes b, file)

/-- Modelled from the spec: the member `ReadU8String()` of the missing `ChunkFile`:
one length byte, then that many bytes. -/
def ChunkFile.ReadU8String (file : ChunkFile) : Except Err (List Nat × ChunkFile) :=
  match file.ReadBytes 1 with
  | .error e => .error e
  | .ok (b, file) => file.ReadBytes (b.getD 0 0 % 256)

/-- Modelled from the spec: the member `Seek(offset, SeekOrigin::Current)` of the
missing `ChunkFile`, for the forward offsets the loaders use: `InvalidSeekError`
when the target is outside the stream. -/
def ChunkFile.Seek (file : ChunkFile) (offset : Nat) : Except Err ChunkFile :=
  if file.position + offset ≤ file.bytes.length then
    .ok { file with position := file.position + offset }
  else .error .invalidSeek

/-- Modelled from the spec: the member `BeginChunk()` of the missing `ChunkFile`:
reads the header (tag, declared length), pushes a frame and returns the tag. -/
def ChunkFile.BeginChunk (file : ChunkFile) : Except Err (Nat × ChunkFile) :=
  match file.ReadU32 with
  | .error e => .error e
  | .ok (tag, file) =>
    match file.ReadU32 with
    | .error e => .error e
    | .ok (declaredLength, file) =>
      .ok (tag, { file with frames := ⟨file.position, declaredLength⟩ :: file.frames })

/-- Modelled from the spec: the member `EndChunk()` of the missing `ChunkFile`:
pops the innermost frame and forces the position to its declared end; a cursor
already past that end is a `ChunkOverrunError`, no open frame is a logic error. -/
def ChunkFile.EndChunk (file : ChunkFile) : Except Err ChunkFile :=
  match file.frames with
  | [] => .error .emptyFrameStack
  | frame :: outer =>
    if file.position > frame.start + frame.declaredLength then .error .chunkOverrun
    else if frame.start + frame.declaredLength > file.bytes.length then .error .invalidSeek
    else .ok { file with position := frame.start + frame.declaredLength, frames := outer }

/-- Modelled from the spec: the member `ChunksRemaining()` of the missing
`ChunkFile`: whether the cursor is before the declared end of the enclosing
chunk (of the stream when no chunk is open). -/
def ChunkFile.ChunksRemaining (file : ChunkFile) : Bool :=
  match file.frames with
  | [] => decide (file.position < file.bytes.length)
  | frame :: _ => decide (file.position < frame.start + frame.declaredLength)

/-! ## `TextureLoader` -/

/-- The macro `assert(cond)`: with `NDEBUG` defined it does nothing, otherwise a false
condition ends the program. -/
def assert (NDEBUG : Bool) (cond : Bool) : Except Err Unit :=
  if NDEBUG || cond then .ok () else .error .assertionFailed

/-- The values of the enumerators of `ChunkID` the loader names; the enumeration is
declared outside the source files. -/
structure ChunkIDs where
  TextureImage : Nat
  TextureImageData : Nat
  deriving DecidableEq, Repr

/-- The enumeration `Texture::Format`, as far as the loader uses it. -/
inductive TextureFormat where
  | RGB8
  | RGBA8
  deriving DecidableEq, Repr

/-- The class `Texture` of the renderer: the arguments of `Create` and the name
(empty until `SetName`). -/
structure Texture where
  name : List Nat
  width : Nat
  height : Nat
  format : TextureFormat
  image : List Nat
  deriving DecidableEq, Repr

/-- Member `Texture::Create(width, height, format, image)` on a fresh texture. -/
def Texture.Create (width height : Nat) (format : TextureFormat) (image : List Nat) : Texture :=
  { name := [], width := width, height := height, format := format, image := image }

/-- Member `Texture::SetName`. -/
def Texture.SetName (t : Texture) (name : List Nat) : Texture := { t with name := name }

/-- Constant `PNG_COLOR_TYPE_GRAY` of `png.h`. -/
def PNG_COLOR_TYPE_GRAY : Nat := 0

/-- Constant `PNG_COLOR_TYPE_RGB` of `png.h`. -/
def PNG_COLOR_TYPE_RGB : Nat := 2

/-- Constant `PNG_COLOR_TYPE_PALETTE` of `png.h`. -/
def PNG_COLOR_TYPE_PALETTE : Nat := 3

/-- Constant `PNG_COLOR_TYPE_GRAY_ALPHA` of `png.h`. -/
def PNG_COLOR_TYPE_GRAY_ALPHA : Nat := 4

/-- Constant `PNG_COLOR_TYPE_RGB_ALPHA` of `png.h`. -/
def PNG_COLOR_TYPE_RGB_ALPHA : Nat := 6

/-- What `png_get_IHDR` and `png_get_valid(png, info, PNG_INFO_tRNS)` report after
`png_read_info`. -/
structure PngHeader where
  width : Nat
  height : Nat
  bit_depth : Nat
  color_type : Nat
  tRNS : Bool
  deriving DecidableEq, Repr

/-- The transformations `LoadImage` asks of the PNG library before `png_read_update_info`. -/
structure PngTransforms where
  tRNS_to_alpha : Bool
  palette_to_rgb : Bool
  packing : Bool
  scale_16 : Bool
  deriving DecidableEq, Repr

/-- The PNG library, as `LoadImage` uses it. It pulls its input through the read
callback, that is from the cursor: each reading function is given the bytes from
the cursor on and tells how many of them it consumed; `none` is a PNG error, on
which the library jumps back to the `setjmp` of `LoadImage`. -/
structure PngLib where
  /-- The call `png_read_info`. -/
  read_info : List Nat → Option (Nat × PngHeader)
  /-- The colour type reported by `png_get_color_type` after `png_read_update_info`. -/
  updated_color_type : PngHeader → PngTransforms → Nat
  /-- The call `png_read_image`: the `row_bytes * height` bytes of the rows. -/
  read_image : PngHeader → PngTransforms → List Nat → Option (Nat × List Nat)

/-- A call of the PNG library that reads through the callback `f->Read(data, length)`.
On a PNG error the model stops with `pngLongjmp`: the code ignores the result of
`setjmp` and goes on after the jump, which is not described here. -/
def pngRead {α : Type} (reader : List Nat → Option (Nat × α)) (file : ChunkFile) :
    Except Err (α × ChunkFile) :=
  match reader (file.bytes.drop file.position) with
  | none => .error .pngLongjmp
  | some (consumed, a) =>
    match file.ReadBytes consumed with
    | .error e => .error e
    | .ok (_, file) => .ok (a, file)

/-- The transformations `TextureLoader::LoadImage` sets from the header: transparency
to alpha when a `tRNS` chunk is present, palette to RGB for palette images, packing
for bit depths below 8, scaling for bit depth 16. -/
def TextureLoader.LoadImage_transforms (header : PngHeader) : PngTransforms :=
  { tRNS_to_alpha := header.tRNS
    palette_to_rgb := header.color_type == PNG_COLOR_TYPE_PALETTE
    packing := decide (header.bit_depth < 8)
    scale_16 := !decide (header.bit_depth < 8) && header.bit_depth == 16 }

/-- The texture format `TextureLoader::LoadImage` picks from the colour type read
back after `png_read_update_info`. -/
def TextureLoader.LoadImage_glFormat (color_type : Nat) : TextureFormat :=
  if color_type == PNG_COLOR_TYPE_RGB_ALPHA then .RGBA8 else .RGB8

/-- Member `TextureLoader::LoadImage`. The OpenGL calls (`glGenTextures` to
`glGenerateMipmap`) act on the GL context only and are left out. -/
def TextureLoader.LoadImage (NDEBUG : Bool) (png : PngLib) (ids : ChunkIDs) (file : ChunkFile) :
    Except Err (Option Texture × ChunkFile) := do
  let (_, file) ← file.ReadU8String
  let (version, file) ← file.ReadU32
  assert NDEBUG (version == 14000)
  -- this is all unused, we trust the image data only!
  let file ← file.Seek 16
  let (hasAlphaWord, file) ← file.ReadU32
  let _ := hasAlphaWord == 1
  let (format, file) ← file.ReadU32
  -- only handle png
  assert NDEBUG (format == 1)
  let (chunkID, file) ← file.BeginChunk
  assert NDEBUG (chunkID == ids.TextureImageData)
  -- get the image data size
  let (_, file) ← file.ReadU32
  let (header, file) ← pngRead png.read_info file
  -- only support these types
  if header.color_type != PNG_COLOR_TYPE_PALETTE && header.color_type != PNG_COLOR_TYPE_RGB
      && header.color_type != PNG_COLOR_TYPE_RGB_ALPHA then
    -- `return nullptr;` without `file.EndChunk()`
    return (none, file)
  let transforms := TextureLoader.LoadImage_transforms header
  -- read our new color type
  let color_type := png.updated_color_type header transforms
  let (image, file) ← pngRead (png.read_image header transforms) file
  let glFormat := TextureLoader.LoadImage_glFormat color_type
  let texture := Texture.Create header.width header.height glFormat image
  let file ← file.EndChunk
  return (some texture, file)

/-- The loop `while (file.ChunksRemaining())` of `TextureLoader::LoadEntity`; `fuel`
bounds the number of evaluations of the loop condition. -/
def TextureLoader.LoadEntity_chunks (NDEBUG : Bool) (png : PngLib) (ids : ChunkIDs) :
    (fuel : Nat) → ChunkFile → Option Texture → Except Err (Option Texture × ChunkFile)
  | 0, _, _ => .error .outOfFuel
  | fuel + 1, file, texture =>
    if file.ChunksRemaining then do
      let (chunkID, file) ← file.BeginChunk
      let (texture, file) ←
        if chunkID == ids.TextureImage then TextureLoader.LoadImage NDEBUG png ids file
        else pure (texture, file)
      let file ← file.EndChunk
      TextureLoader.LoadEntity_chunks NDEBUG png ids fuel file texture
    else .ok (texture, file)

/-- Member `TextureLoader::LoadEntity`: the texture returned (`none` for a null
pointer) and the cursor on return. Every turn of the loop reads a chunk header of
eight bytes and the cursor never moves back, so `size + 1` evaluations of the loop
condition are allowed for. -/
def TextureLoader.LoadEntity (NDEBUG : Bool) (png : PngLib) (ids : ChunkIDs) (file : ChunkFile) :
    Except Err (Option Texture × ChunkFile) := do
  let (name, file) ← file.ReadU8String
  let (version, file) ← file.ReadU32
  assert NDEBUG (version == 14000)
  -- skip: w, h, bpp, ad, mipmaps, type, usage, priority
  let file ← file.Seek 32
  let (texture, file) ←
    TextureLoader.LoadEntity_chunks NDEBUG png ids (file.bytes.length + 1) file none
  let texture := texture.map (fun t => t.SetName name)
  return (texture, file)

/-! ### The byte layout the loader reads -/

/-- The four bytes of a `uint32_t`, little-endian. -/
def u32le (v : Nat) : List Nat := [v % 256, v / 256 % 256, v / 65536 % 256, v / 16777216 % 256]

/-- A string as `ReadU8String` reads it: its length in one byte, then its bytes. -/
def u8string (s : List Nat) : List Nat := s.length :: s

/-- A chunk: the tag, the declared length of the payload, the payload. -/
def chunkBytes (tag : Nat) (payload : List Nat) : List Nat :=
  u32le tag ++ u32le payload.length ++ payload

/-- The bytes of a sequence of sibling chunks, each given by its tag and payload. -/
def chunksBytes : List (Nat × List Nat) → List Nat
  | [] => []
  | c :: cs => chunkBytes c.1 c.2 ++ chunksBytes cs

/-- The payload of a `TextureImageData` chunk: the size field, then the PNG stream. -/
def imageDataPayload (size : Nat) (stream : List Nat) : List Nat := u32le size ++ stream

/-- The payload of a `TextureImage` chunk: name, version, sixteen unused bytes, the
alpha flag, the format, and one `TextureImageData` child. -/
def imagePayload (ids : ChunkIDs) (name : List Nat) (version : Nat) (unused : List Nat)
    (hasAlpha format size : Nat) (stream : List Nat) : List Nat :=
  u8string name ++ u32le version ++ unused ++ u32le hasAlpha ++ u32le format
    ++ chunkBytes ids.TextureImageData (imageDataPayload size stream)

/-- The payload of a `Texture` chunk: name, version, thirty-two unused bytes, then
the child chunks. -/
def texturePayload (name : List Nat) (version : Nat) (unused : List Nat)
    (children : List Nat) : List Nat :=
  u8string name ++ u32le version ++ unused ++ children

/-- The cursor standing between the bytes `before` and the bytes `rest` of a stream. -/
def cursorAt (before rest : List Nat) (frames : List ChunkFrame) : ChunkFile :=
  { bytes := before ++ rest, position := before.length, frames := frames }

/-- The cursor just after `BeginChunk` on a chunk whose payload is `payload`: it
stands at the start of the payload, and the frame of the chunk is the innermost. -/
def enteredChunk (before payload after : List Nat) (outer : List ChunkFrame) : ChunkFile :=
  cursorAt before (payload ++ after) (⟨before.length, payload.length⟩ :: outer)

/-- The outcome of a reading step started at `file` fits the iteration budget of
`LoadEntity`: on success the stream is the same and the cursor has not moved
back; a failure is one of the code or a jump of the PNG library, never a used-up
budget. -/
def Advances {α : Type} (file : ChunkFile) (r : Except Err (α × ChunkFile)) : Prop :=
  match r with
  | .ok (_, g) => g.bytes = file.bytes ∧ file.position ≤ g.position
  | .error e => e ≠ .outOfFuel

/-! ## Sample inputs -/

/-- A loader environment for concrete runs: the file `./art/level.p3d` exists and
has the root children `root`; the status of a path of more than 255 characters
cannot be read (file name too long); a chunk's first data byte selects what its
loader yields. Instance list `0` holds one drawable named `B`, instance list `1` two
drawables. -/
def sampleEnv (root : List P3D.Chunk) : Env where
  pathExists := fun path => path == "./art/level.p3d"
  statusError := fun path => decide (255 < path.length)
  rootChildren := fun _ => root
  Shader_Load := fun _ => ⟨"shader"⟩
  Texture_Load := fun _ => ⟨"texture"⟩
  Set_Load := fun _ => ⟨"set"⟩
  StaticEntity_Load := fun _ => ⟨"house", ⟨"houseMesh"⟩⟩
  StaticPhysics_Load := fun _ => ⟨some ⟨7⟩⟩
  InstancedStaticPhysics_Load := fun c =>
    match c.data with
    | 0 :: _ => ⟨⟨0⟩, [⟨"A"⟩]⟩
    | _ => ⟨⟨0⟩, [⟨"A"⟩, ⟨"A"⟩, ⟨"B"⟩]⟩
  DynamicPhysics_Load := fun _ => ⟨⟨0⟩, [⟨"A"⟩, ⟨"A"⟩, ⟨"B"⟩]⟩
  AnimDynamicPhysics_Load := fun _ => ⟨⟨1⟩, ⟨5⟩⟩
  Intersect_Load := fun _ => ⟨3⟩
  WorldSphere_Load := fun _ => ⟨4⟩
  Locator2_Load := fun _ => ⟨"loc"⟩
  FenceWrapper_Load := fun _ => ⟨⟨9⟩⟩
  GetDrawables := fun il =>
    match il.id with
    | 0 => ([⟨"B"⟩], [⟨[1]⟩])
    | _ => ([⟨"d0"⟩, ⟨"d1"⟩], [⟨[1]⟩, ⟨[2]⟩])

/-- The chunk ids of the texture image chunks in P3D files, for concrete runs. -/
def sampleIds : ChunkIDs := { TextureImage := 102401, TextureImageData := 102402 }

/-- A stand-in for the PNG library, for concrete runs, on a toy stream layout:
colour type, bit depth, width, height (one byte each), then the rows. A palette
image becomes RGB when `palette_to_rgb` is set; pixels take four bytes for
RGB-with-alpha and three otherwise. -/
def samplePng : PngLib where
  read_info := fun bytes =>
    match bytes with
    | c :: d :: w :: h :: _ => some (4, ⟨w, h, d, c, false⟩)
    | _ => none
  updated_color_type := fun header t =>
    if t.palette_to_rgb then PNG_COLOR_TYPE_RGB else header.color_type
  read_image := fun header _ bytes =>
    let n := header.width * header.height * (if header.color_type == PNG_COLOR_TYPE_RGB_ALPHA
      then 4 else 3)
    if n ≤ bytes.length then some (n, bytes.take n) else none

/-- A `TextureImage` chunk named `i` of version `version` around the toy PNG `stream`. -/
def sampleImageChunk (version : Nat) (stream : List Nat) : List Nat :=
  chunkBytes sampleIds.TextureImage
    (imagePayload sampleIds [105] version (List.replicate 16 0) 0 1 stream.length stream)

/-- A `TextureImage` chunk like `sampleImageChunk` whose declared length also covers
the bytes `padding` after its `TextureImageData` child. -/
def samplePaddedImageChunk (version : Nat) (stream padding : List Nat) : List Nat :=
  chunkBytes sampleIds.TextureImage
    (imagePayload sampleIds [105] version (List.replicate 16 0) 0 1 stream.length stream
      ++ padding)

/-- A cursor inside a `Texture` chunk named `t`, of version 14000, with the child
chunks `children`: the header of the chunk has been read by `BeginChunk`. -/
def sampleTextureFile (children : List Nat) : ChunkFile where
  bytes := chunkBytes 102400 (texturePayload [116] 14000 (List.replicate 32 0) children)
  position := 8
  frames := [⟨8, (texturePayload [116] 14000 (List.replicate 32 0) children).length⟩]

/-- A `Level` with nothing loaded yet. -/
def emptyLevel : Level where
  _entities := []
  _compositeModels := []
  _worldSphere := none
  _worldPhysics := ⟨[], [], []⟩
  resourceManager := ⟨[], [], []⟩
  locators := []
  cout := []

end Donut

/-! # Properties -/

namespace Donut

/-! ## `Level::LoadP3D` -/

theorem LoadP3D_chunk_other (env : Env) (self : Level) (chunk : P3D.Chunk)
    (h : chunk.GetType ∉ [P3D.ChunkType.Shader, .Texture, .Set, .StaticEntity, .StaticPhysics,
      .InstancedStaticPhysics, .DynamicPhysics, .AnimDynamicPhysics, .Intersect, .WorldSphere,
      .Locator2, .FenceWrapper]) :
    Level.LoadP3D_chunk env self chunk = (self, none) := by
  unfold Level.LoadP3D_chunk Level.LoadP3D_default
  cases hty : chunk.GetType <;> simp_all

theorem LoadP3D_chunks_skip (env : Env) (front back : List P3D.Chunk) (chunk : P3D.Chunk)
    (hc : ∀ self, Level.LoadP3D_chunk env self chunk = (self, none)) (self : Level) :
    Level.LoadP3D_chunks env (front ++ chunk :: back) self
      = Level.LoadP3D_chunks env (front ++ back) self := by
  induction front generalizing self with
  | nil => simp [Level.LoadP3D_chunks, hc]
  | cons c cs ih =>
    simp only [List.cons_append, Level.LoadP3D_chunks]
    rcases hstep : Level.LoadP3D_chunk env self c with ⟨s1, _ | e⟩
    · simpa using ih s1
    · rfl

theorem vecAt_ok_of_lt {α : Type} (v : List α) (i : Nat) (h : i < v.length) :
    vecAt v i = .ok (v.get ⟨i, h⟩) := by
  simp [vecAt, List.getElem?_eq_getElem h]

theorem vecAt_error {α : Type} (v : List α) (i : Nat) (e : Err) (h : vecAt v i = .error e) :
    e = .outOfRange := by
  unfold vecAt at h
  split at h <;> simp_all

theorem mapAt_error (m : StdMap) (k : String) (e : Err) (h : mapAt m k = .error e) :
    e = .outOfRange := by
  unfold mapAt at h
  split at h <;> simp_all

theorem mapAt_ok_mem (m : StdMap) (k : String) (v : Nat) (h : mapAt m k = .ok v) :
    k ∈ m.map Prod.fst := by
  unfold mapAt at h
  split at h
  · rename_i e he
    have hk := List.find?_some he
    have hm := List.mem_of_find?_eq_some he
    simp only [beq_iff_eq] at hk
    exact List.mem_map.2 ⟨e, hm, hk⟩
  · simp at h

theorem mapInsert_keys (m : StdMap) (kv : String × Nat) (k : String)
    (h : k ∈ (mapInsert m kv).map Prod.fst) : k ∈ m.map Prod.fst ∨ k = kv.1 := by
  unfold mapInsert at h
  split at h
  · exact Or.inl h
  · simp only [List.map_append, List.map_cons, List.map_nil, List.mem_append,
      List.mem_singleton] at h
    exact h

theorem buildMeshesNameIndex_keys (meshes : List P3D.Mesh) (m : StdMap) (k : String)
    (h : k ∈ (buildMeshesNameIndex meshes m).map Prod.fst) :
    k ∈ m.map Prod.fst ∨ k ∈ meshes.map P3D.Mesh.GetName := by
  induction meshes generalizing m with
  | nil => exact Or.inl h
  | cons mesh rest ih =>
    simp only [buildMeshesNameIndex, List.foldl_cons] at h
    rcases ih _ h with h1 | h1
    · rcases mapInsert_keys _ _ _ h1 with h2 | h2
      · exact Or.inl h2
      · exact Or.inr (by simp [h2])
    · exact Or.inr (by simp only [List.map_cons, List.mem_cons]; exact Or.inr h1)

theorem resolveMesh_error (meshes : List P3D.Mesh) (m : StdMap) (k : String) (e : Err)
    (h : resolveMesh meshes m k = .error e) : e = .outOfRange := by
  unfold resolveMesh at h
  split at h
  · rename_i e1 he
    have := mapAt_error _ _ _ he
    simp_all
  · exact vecAt_error _ _ _ h

theorem resolveInstances_error (drawables : List P3D.SceneGraphDrawable) (transforms : List Mat4)
    (meshes : List P3D.Mesh) (m : StdMap) (k i : Nat) (e : Err)
    (h : resolveInstances drawables transforms meshes m k i = .error e) : e = .outOfRange := by
  induction k generalizing i with
  | zero => simp [resolveInstances] at h
  | succ k ih =>
    unfold resolveInstances at h
    split at h
    · rename_i e1 he
      have := vecAt_error _ _ _ he
      simp_all
    · split at h
      · rename_i e1 he
        have := vecAt_error _ _ _ he
        simp_all
      · split at h
        · rename_i e1 he
          have := resolveMesh_error _ _ _ _ he
          simp_all
        · exact ih _ h

theorem resolveInstances_ok (drawables : List P3D.SceneGraphDrawable) (transforms : List Mat4)
    (meshes : List P3D.Mesh) (m : StdMap) (k i : Nat)
    (h : resolveInstances drawables transforms meshes m k i = .ok ())
    (j : Nat) (hij : i ≤ j) (hjk : j < i + k) (hj : j < drawables.length) :
    (drawables.get ⟨j, hj⟩).GetName ∈ m.map Prod.fst := by
  induction k generalizing i with
  | zero => omega
  | succ k ih =>
    unfold resolveInstances at h
    split at h
    · simp at h
    · rename_i drawable hd
      split at h
      · simp at h
      · split at h
        · simp at h
        · rename_i mesh hmesh
          by_cases hji : j = i
          · subst hji
            rw [vecAt_ok_of_lt drawables j hj] at hd
            injection hd with hd
            subst hd
            unfold resolveMesh at hmesh
            split at hmesh
            · simp at hmesh
            · rename_i idx hidx
              exact mapAt_ok_mem _ _ _ hidx
          · exact ih (i + 1) h (by omega) (by omega)

theorem resolveInstances_dangling (drawables : List P3D.SceneGraphDrawable)
    (transforms : List Mat4) (meshes : List P3D.Mesh)
    (h : ∃ d ∈ drawables, d.GetName ∉ meshes.map P3D.Mesh.GetName) :
    resolveInstances drawables transforms meshes (buildMeshesNameIndex meshes [])
      drawables.length 0 = .error .outOfRange := by
  obtain ⟨d, hd, hname⟩ := h
  obtain ⟨j, hj, hget⟩ := List.getElem_of_mem hd
  cases hres : resolveInstances drawables transforms meshes (buildMeshesNameIndex meshes [])
      drawables.length 0 with
  | error e => rw [resolveInstances_error _ _ _ _ _ _ _ hres]
  | ok u =>
    exfalso
    have hmem := resolveInstances_ok _ _ _ _ _ _ hres j (Nat.zero_le _) (by omega) hj
    rcases buildMeshesNameIndex_keys _ _ _ hmem with h1 | h1
    · simp at h1
    · apply hname
      rw [← hget]
      exact h1

theorem LoadP3D_chunk_dangling (env : Env) (self : Level) (chunk : P3D.Chunk)
    (hty : chunk.GetType = .InstancedStaticPhysics)
    (h : ∃ d ∈ (env.GetDrawables (env.InstancedStaticPhysics_Load chunk).instanceList).1,
      d.GetName ∉ (env.InstancedStaticPhysics_Load chunk).meshes.map P3D.Mesh.GetName) :
    Level.LoadP3D_chunk env self chunk = (self, some .outOfRange) := by
  unfold Level.LoadP3D_chunk
  rw [hty]
  simp only
  rw [resolveInstances_dangling _ _ _ h]

theorem LoadP3D_chunks_env (env : Env) (r : String → List P3D.Chunk) (l : List P3D.Chunk)
    (self : Level) :
    Level.LoadP3D_chunks { env with rootChildren := r } l self
      = Level.LoadP3D_chunks env l self := by
  induction l generalizing self with
  | nil => rfl
  | cons c cs ih =>
    simp only [Level.LoadP3D_chunks]
    have hc : Level.LoadP3D_chunk { env with rootChildren := r } self c
        = Level.LoadP3D_chunk env self c := rfl
    rw [hc]
    rcases Level.LoadP3D_chunk env self c with ⟨s1, _ | e⟩
    · exact ih s1
    · rfl

theorem LoadP3D_chunks_abort (env : Env) (front back : List P3D.Chunk) (chunk : P3D.Chunk)
    (e : Err) (hc : ∀ self, Level.LoadP3D_chunk env self chunk = (self, some e))
    (self reached : Level) (hfront : Level.LoadP3D_chunks env front self = (reached, none)) :
    Level.LoadP3D_chunks env (front ++ chunk :: back) self = (reached, some e) := by
  induction front generalizing self with
  | nil =>
    simp only [Level.LoadP3D_chunks] at hfront
    injection hfront with h1 _
    subst h1
    simp [Level.LoadP3D_chunks, hc]
  | cons c cs ih =>
    simp only [List.cons_append, Level.LoadP3D_chunks] at hfront ⊢
    rcases hstep : Level.LoadP3D_chunk env self c with ⟨s1, _ | e1⟩
    · rw [hstep] at hfront
      simpa using ih s1 hfront
    · rw [hstep] at hfront
      simp at hfront

/-- C1. A root chunk whose type is none of the twelve handled by
`Level::LoadP3D` can be inserted anywhere in the root chunk list without
changing the outcome of the load: the whole state on return (entities,
composite models, world sphere, locators, resource-manager registrations,
physics-sink additions, output) and the pending exception are the same as
without that chunk. -/
theorem LoadP3D_unknown_chunk_inert (env : Env) (self : Level) (filename : String)
    (front back : List P3D.Chunk) (chunk : P3D.Chunk)
    (h : chunk.GetType ∉ [P3D.ChunkType.Shader, .Texture, .Set, .StaticEntity, .StaticPhysics,
      .InstancedStaticPhysics, .DynamicPhysics, .AnimDynamicPhysics, .Intersect, .WorldSphere,
      .Locator2, .FenceWrapper]) :
    Level.LoadP3D { env with rootChildren := fun _ => front ++ chunk :: back } self filename
      = Level.LoadP3D { env with rootChildren := fun _ => front ++ back } self filename := by
  have hskip := LoadP3D_chunks_skip env front back chunk
    (fun s => LoadP3D_chunk_other env s chunk h)
  have hfile : ∀ r : String → List P3D.Chunk,
      Env.fileExists { env with rootChildren := r } ("./art/" ++ filename)
        = env.fileExists ("./art/" ++ filename) := fun _ => rfl
  simp only [Level.LoadP3D, hfile, LoadP3D_chunks_env, hskip]

/-- An instance of `LoadP3D_unknown_chunk_inert`: a chunk with the unhandled id 65536
between a `StaticEntity` chunk and a `WorldSphere` chunk. -/
theorem LoadP3D_unknown_chunk_inert_witness :
    (P3D.Chunk.mk (.other 65536) [1, 2]).GetType ∉ [P3D.ChunkType.Shader, .Texture, .Set,
        .StaticEntity, .StaticPhysics, .InstancedStaticPhysics, .DynamicPhysics,
        .AnimDynamicPhysics, .Intersect, .WorldSphere, .Locator2, .FenceWrapper]
      ∧ Level.LoadP3D { sampleEnv [] with rootChildren := fun _ =>
            [⟨.StaticEntity, []⟩] ++ ⟨.other 65536, [1, 2]⟩ :: [⟨.WorldSphere, []⟩] }
          emptyLevel "level.p3d"
        = Level.LoadP3D { sampleEnv [] with rootChildren := fun _ =>
            [⟨.StaticEntity, []⟩] ++ [⟨.WorldSphere, []⟩] } emptyLevel "level.p3d" :=
  ⟨by decide, LoadP3D_unknown_chunk_inert (sampleEnv []) emptyLevel "level.p3d"
    [⟨.StaticEntity, []⟩] [⟨.WorldSphere, []⟩] ⟨.other 65536, [1, 2]⟩ (by decide)⟩

/-- C3, as the code behaves. When the root chunk list is `front ++ chunk :: back`,
the chunks of `front` load without an exception and reach the state `reached`,
and `chunk` is an `InstancedStaticPhysics` chunk with an instance whose drawable
name is not the name of any of its meshes, then `Level::LoadP3D` is left by a
`std::out_of_range` exception in the state `reached`: the effects of the chunks
before it are kept, and no chunk of `back` is processed. -/
theorem LoadP3D_dangling_instance_aborts (env : Env) (self reached : Level) (filename : String)
    (front back : List P3D.Chunk) (chunk : P3D.Chunk)
    (hfile : env.fileExists ("./art/" ++ filename) = .ok true)
    (hfront : Level.LoadP3D { env with rootChildren := fun _ => front } self filename
      = (reached, none))
    (hty : chunk.GetType = .InstancedStaticPhysics)
    (hdangling : ∃ d ∈ (env.GetDrawables (env.InstancedStaticPhysics_Load chunk).instanceList).1,
      d.GetName ∉ (env.InstancedStaticPhysics_Load chunk).meshes.map P3D.Mesh.GetName) :
    Level.LoadP3D { env with rootChildren := fun _ => front ++ chunk :: back } self filename
      = (reached, some .outOfRange) := by
  have hfile2 : ∀ r : String → List P3D.Chunk,
      Env.fileExists { env with rootChildren := r } ("./art/" ++ filename) = .ok true :=
    fun _ => hfile
  simp only [Level.LoadP3D, hfile2, LoadP3D_chunks_env] at hfront ⊢
  exact LoadP3D_chunks_abort env front back chunk .outOfRange
    (fun s => LoadP3D_chunk_dangling env s chunk hty hdangling) _ _ hfront

/-- An instance of `LoadP3D_dangling_instance_aborts`: a `WorldSphere` chunk, then an
`InstancedStaticPhysics` chunk with the meshes `A` and a drawable named `B`, then a
`StaticEntity` chunk. -/
theorem LoadP3D_dangling_instance_aborts_witness :
    (sampleEnv []).fileExists ("./art/" ++ "level.p3d") = .ok true
      ∧ Level.LoadP3D { sampleEnv [] with rootChildren := fun _ => [⟨.WorldSphere, []⟩] }
          emptyLevel "level.p3d"
        = ({ emptyLevel with
              _worldSphere := some ⟨⟨4⟩⟩, cout := ["Loading level: level.p3d\n"] }, none)
      ∧ (P3D.Chunk.mk .InstancedStaticPhysics [0]).GetType = .InstancedStaticPhysics
      ∧ (∃ d ∈ ((sampleEnv []).GetDrawables ((sampleEnv []).InstancedStaticPhysics_Load
            ⟨.InstancedStaticPhysics, [0]⟩).instanceList).1,
          d.GetName ∉ ((sampleEnv []).InstancedStaticPhysics_Load
            ⟨.InstancedStaticPhysics, [0]⟩).meshes.map P3D.Mesh.GetName)
      ∧ Level.LoadP3D { sampleEnv [] with rootChildren := fun _ =>
            [⟨.WorldSphere, []⟩] ++ ⟨.InstancedStaticPhysics, [0]⟩ :: [⟨.StaticEntity, []⟩] }
          emptyLevel "level.p3d"
        = ({ emptyLevel with
              _worldSphere := some ⟨⟨4⟩⟩, cout := ["Loading level: level.p3d\n"] },
            some .outOfRange) :=
  ⟨rfl, by decide, rfl, ⟨⟨"B"⟩, by decide, by decide⟩,
    LoadP3D_dangling_instance_aborts (sampleEnv []) emptyLevel _ "level.p3d"
      [⟨.WorldSphere, []⟩] [⟨.StaticEntity, []⟩] ⟨.InstancedStaticPhysics, [0]⟩
      rfl (by decide) rfl ⟨⟨"B"⟩, by decide, by decide⟩⟩

/-- C3, counterexample to the claim as stated. For the root list made of an
`InstancedStaticPhysics` chunk with a dangling instance followed by a
`StaticEntity` chunk, `Level::LoadP3D` is left by `std::out_of_range` and the
entity list stays empty, although loading the `StaticEntity` chunk alone adds
one entity: the sibling after the failing chunk is not processed. -/
theorem LoadP3D_dangling_instance_not_confined :
    (Level.LoadP3D (sampleEnv [⟨.InstancedStaticPhysics, [0]⟩, ⟨.StaticEntity, []⟩])
        emptyLevel "level.p3d").2 = some .outOfRange
      ∧ (Level.LoadP3D (sampleEnv [⟨.InstancedStaticPhysics, [0]⟩, ⟨.StaticEntity, []⟩])
        emptyLevel "level.p3d").1._entities = []
      ∧ (Level.LoadP3D (sampleEnv [⟨.StaticEntity, []⟩]) emptyLevel "level.p3d")
        = ({ emptyLevel with
              _entities := [⟨"house", ⟨⟨"houseMesh"⟩⟩⟩],
              cout := ["Loading level: level.p3d\n"] }, none) := by
  decide

theorem buildMeshesNameIndex_of_distinct (rest done : List P3D.Mesh)
    (hnd : ((done ++ rest).map P3D.Mesh.GetName).Nodup) :
    buildMeshesNameIndex rest (done.enum.map (fun im => (im.2.GetName, im.1)))
      = (done ++ rest).enum.map (fun im => (im.2.GetName, im.1)) := by
  induction rest generalizing done with
  | nil => simp [buildMeshesNameIndex]
  | cons mesh rest ih =>
    have hnew : mesh.GetName ∉ done.map P3D.Mesh.GetName := by
      intro hmem
      simp only [List.map_append, List.map_cons] at hnd
      have := (List.nodup_append.1 hnd).2.2
      exact this hmem (List.mem_cons_self _ _)
    have hany : (done.enum.map (fun im => (im.2.GetName, im.1))).any
        (fun e => e.1 == mesh.GetName) = false := by
      rw [Bool.eq_false_iff]
      intro h
      rw [List.any_eq_true] at h
      obtain ⟨e, he, hk⟩ := h
      obtain ⟨im, him, rfl⟩ := List.mem_map.1 he
      simp only [beq_iff_eq] at hk
      exact hnew (List.mem_map.2 ⟨im.2, List.snd_mem_of_mem_enumFrom him, hk⟩)
    have hins : mapInsert (done.enum.map (fun im => (im.2.GetName, im.1)))
          (mesh.GetName, mapSize (done.enum.map (fun im => (im.2.GetName, im.1))))
        = (done ++ [mesh]).enum.map (fun im => (im.2.GetName, im.1)) := by
      unfold mapInsert
      rw [hany]
      simp [mapSize, List.enum, List.enumFrom_append, List.enumFrom_singleton]
    have hstep : buildMeshesNameIndex (mesh :: rest)
          (done.enum.map (fun im => (im.2.GetName, im.1)))
        = buildMeshesNameIndex rest
            ((done ++ [mesh]).enum.map (fun im => (im.2.GetName, im.1))) := by
      rw [← hins]
      rfl
    rw [hstep, ih (done ++ [mesh]) (by simpa using hnd)]
    simp

/-- Name resolution over a mesh list without repeated names. When the names of the
meshes are pairwise different, the mesh selected for a name that occurs among them,
`meshes.at(meshesNameIndex.at(name))`, is a mesh of the list with that name. -/
theorem resolveMesh_of_distinct_names (meshes : List P3D.Mesh)
    (hnd : (meshes.map P3D.Mesh.GetName).Nodup) (name : String)
    (hmem : name ∈ meshes.map P3D.Mesh.GetName) :
    ∃ mesh, resolveMesh meshes (buildMeshesNameIndex meshes []) name = .ok mesh
      ∧ mesh ∈ meshes ∧ mesh.GetName = name := by
  have hbuild := buildMeshesNameIndex_of_distinct meshes [] (by simpa using hnd)
  simp only [List.enum_nil, List.map_nil, List.nil_append] at hbuild
  rw [hbuild]
  obtain ⟨mesh0, hmesh0, hname0⟩ := List.mem_map.1 hmem
  obtain ⟨j, hj, hget⟩ := List.getElem_of_mem hmesh0
  have hin : (mesh0.GetName, j) ∈ meshes.enum.map (fun im => (im.2.GetName, im.1)) := by
    refine List.mem_map.2 ⟨(j, mesh0), ?_, rfl⟩
    rw [List.mk_mem_enum_iff_getElem?]
    simp [List.getElem?_eq_getElem hj, hget]
  cases hfind : (meshes.enum.map (fun im => (im.2.GetName, im.1))).find?
      (fun e => e.1 == name) with
  | none =>
    exfalso
    have := List.find?_eq_none.1 hfind _ hin
    simp [hname0] at this
  | some e =>
    have hk := List.find?_some hfind
    have he := List.mem_of_find?_eq_some hfind
    simp only [beq_iff_eq] at hk
    obtain ⟨im, him, rfl⟩ := List.mem_map.1 he
    obtain ⟨i, mesh⟩ := im
    rw [List.mk_mem_enum_iff_getElem?] at him
    have hi : meshes[i]? = some mesh := by simpa using him
    refine ⟨mesh, ?_, List.getElem?_mem hi, hk⟩
    simp only [resolveMesh, mapAt, hfind, vecAt, hi]

/-- An instance of `resolveMesh_of_distinct_names`: meshes named `A` and `B`. -/
theorem resolveMesh_of_distinct_names_witness :
    (([⟨"A"⟩, ⟨"B"⟩] : List P3D.Mesh).map P3D.Mesh.GetName).Nodup
      ∧ "B" ∈ ([⟨"A"⟩, ⟨"B"⟩] : List P3D.Mesh).map P3D.Mesh.GetName
      ∧ ∃ mesh, resolveMesh [⟨"A"⟩, ⟨"B"⟩] (buildMeshesNameIndex [⟨"A"⟩, ⟨"B"⟩] []) "B" = .ok mesh
          ∧ mesh ∈ ([⟨"A"⟩, ⟨"B"⟩] : List P3D.Mesh) ∧ mesh.GetName = "B" :=
  ⟨by decide, by decide,
    resolveMesh_of_distinct_names [⟨"A"⟩, ⟨"B"⟩] (by decide) "B" (by decide)⟩

/-- C4, the code at a mesh list with a repeated name. With meshes named
`A`, `A`, `B` the index map built by `Level::LoadP3D` is `A ↦ 0, B ↦ 1`, and
the mesh selected for a drawable named `B`, `meshes.at(meshesNameIndex.at("B"))`,
is the second mesh, whose name is `A`. -/
theorem resolveMesh_repeated_name_selects_other_mesh :
    buildMeshesNameIndex [⟨"A"⟩, ⟨"A"⟩, ⟨"B"⟩] [] = [("A", 0), ("B", 1)]
      ∧ "B" ∈ ([⟨"A"⟩, ⟨"A"⟩, ⟨"B"⟩] : List P3D.Mesh).map P3D.Mesh.GetName
      ∧ resolveMesh [⟨"A"⟩, ⟨"A"⟩, ⟨"B"⟩] (buildMeshesNameIndex [⟨"A"⟩, ⟨"A"⟩, ⟨"B"⟩] []) "B"
        = .ok ⟨"A"⟩
      ∧ (⟨"A"⟩ : P3D.Mesh).GetName ≠ "B" :=
  ⟨by decide, by decide, rfl, by decide⟩

theorem placeAnimInstances_eq (drawables : List P3D.SceneGraphDrawable) (transforms : List Mat4)
    (wrapper : P3D.AnimObjectWrapper) (hlen : drawables.length = transforms.length)
    (k i : Nat) (hk : i + k = drawables.length) (models : List CompositeModel) :
    placeAnimInstances drawables transforms wrapper k i models
      = (models ++ (transforms.drop i).map
          (fun t => { source := .animObjectWrapper wrapper, _transform := some t }), none) := by
  induction k generalizing i models with
  | zero =>
    have hi : transforms.length ≤ i := by omega
    simp [placeAnimInstances, List.drop_eq_nil_of_le hi]
  | succ k ih =>
    have hd : i < drawables.length := by omega
    have ht : i < transforms.length := by omega
    unfold placeAnimInstances
    rw [vecAt_ok_of_lt drawables i hd, vecAt_ok_of_lt transforms i ht]
    simp only
    rw [ih (i + 1) (by omega)]
    have hdrop : transforms.drop i = transforms.get ⟨i, ht⟩ :: transforms.drop (i + 1) := by
      simp
    rw [hdrop]
    simp only [CompositeModel.ofAnimObjectWrapper, CompositeModel.SetTransform, List.map_cons,
      List.append_assoc, List.cons_append, List.nil_append]

/-- C7. For an `AnimDynamicPhysics` chunk whose instance list yields the
drawables `drawables` with the transforms `transforms` (one per drawable),
`Level::LoadP3D` appends to the composite-model list one model per instance, in
instance order, the i-th carrying the i-th transform and each built from the
chunk's animated-object wrapper; the models already present stay as a prefix,
no exception is thrown, and every other part of the state (entity list, world
sphere, physics sink, resource manager, locators) is unchanged. -/
theorem LoadP3D_AnimDynamicPhysics_appends (env : Env) (self : Level) (chunk : P3D.Chunk)
    (drawables : List P3D.SceneGraphDrawable) (transforms : List Mat4)
    (hty : chunk.GetType = .AnimDynamicPhysics)
    (hinst : env.GetDrawables (env.AnimDynamicPhysics_Load chunk).instanceList
      = (drawables, transforms))
    (hlen : drawables.length = transforms.length) :
    Level.LoadP3D_chunk env self chunk
      = ({ self with
            _compositeModels := self._compositeModels ++ transforms.map (fun t =>
              { source := .animObjectWrapper (env.AnimDynamicPhysics_Load chunk).animObjectWrapper,
                _transform := some t }) }, none) := by
  unfold Level.LoadP3D_chunk
  rw [hty]
  simp only [hinst]
  rw [placeAnimInstances_eq drawables transforms _ hlen drawables.length 0 (by omega)]
  simp

/-- An instance of `LoadP3D_AnimDynamicPhysics_appends`: an instance list of two
drawables. -/
theorem LoadP3D_AnimDynamicPhysics_appends_witness :
    (P3D.Chunk.mk .AnimDynamicPhysics []).GetType = .AnimDynamicPhysics
      ∧ (sampleEnv []).GetDrawables
          ((sampleEnv []).AnimDynamicPhysics_Load ⟨.AnimDynamicPhysics, []⟩).instanceList
        = ([⟨"d0"⟩, ⟨"d1"⟩], [⟨[1]⟩, ⟨[2]⟩])
      ∧ ([⟨"d0"⟩, ⟨"d1"⟩] : List P3D.SceneGraphDrawable).length
        = ([⟨[1]⟩, ⟨[2]⟩] : List Mat4).length
      ∧ Level.LoadP3D_chunk (sampleEnv []) emptyLevel ⟨.AnimDynamicPhysics, []⟩
        = ({ emptyLevel with
              _compositeModels := emptyLevel._compositeModels ++
                ([⟨[1]⟩, ⟨[2]⟩] : List Mat4).map (fun t =>
                  { source := .animObjectWrapper
                      ((sampleEnv []).AnimDynamicPhysics_Load
                        ⟨.AnimDynamicPhysics, []⟩).animObjectWrapper,
                    _transform := some t }) }, none) :=
  ⟨rfl, rfl, rfl, LoadP3D_AnimDynamicPhysics_appends (sampleEnv []) emptyLevel
    ⟨.AnimDynamicPhysics, []⟩ [⟨"d0"⟩, ⟨"d1"⟩] [⟨[1]⟩, ⟨[2]⟩] rfl rfl rfl⟩

/-- C9. Processing a `FenceWrapper` chunk has exactly one effect: the fence of
the loaded wrapper is added once, at the end of the fences of the physics
sink. Falling through into `default` runs no other handler: no exception is
thrown, and the entity list, composite-model list, world sphere, locators,
resource manager, collision volumes and intersect volumes are unchanged. -/
theorem LoadP3D_FenceWrapper_adds_one_fence (env : Env) (self : Level) (chunk : P3D.Chunk)
    (hty : chunk.GetType = .FenceWrapper) :
    Level.LoadP3D_chunk env self chunk
      = ({ self with
            _worldPhysics := { self._worldPhysics with
              fences := self._worldPhysics.fences ++ [(env.FenceWrapper_Load chunk).fence] } },
          none) := by
  unfold Level.LoadP3D_chunk
  rw [hty]
  rfl

/-- An instance of `LoadP3D_FenceWrapper_adds_one_fence` on the empty level. -/
theorem LoadP3D_FenceWrapper_adds_one_fence_witness :
    (P3D.Chunk.mk .FenceWrapper []).GetType = .FenceWrapper
      ∧ Level.LoadP3D_chunk (sampleEnv []) emptyLevel ⟨.FenceWrapper, []⟩
        = ({ emptyLevel with
              _worldPhysics := { emptyLevel._worldPhysics with
                fences := emptyLevel._worldPhysics.fences
                  ++ [((sampleEnv []).FenceWrapper_Load ⟨.FenceWrapper, []⟩).fence] } },
            none) :=
  ⟨rfl, LoadP3D_FenceWrapper_adds_one_fence (sampleEnv []) emptyLevel ⟨.FenceWrapper, []⟩ rfl⟩

/-! ## `Level::DynaLoadData` -/

theorem separators_contains (c : Char) : [';', ':', '@', '$'].contains c = isSeparator c := by
  simp [isSeparator, List.contains_cons, Bool.or_assoc]

theorem find_first_of_from_skip (chars : List Char) (cur s : List Char) (i : Nat)
    (hcur : ∀ c ∈ cur, chars.contains c = false) :
    find_first_of_from chars (cur ++ s) i = find_first_of_from chars s (i + cur.length) := by
  induction cur generalizing i with
  | nil => simp
  | cons c cs ih =>
    have hc : chars.contains c = false := hcur c (List.mem_cons_self _ _)
    rw [List.cons_append, find_first_of_from]
    simp only [hc, Bool.false_eq_true, if_false]
    rw [ih (i + 1) (fun x hx => hcur x (List.mem_cons_of_mem _ hx))]
    simp only [List.length_cons]
    congr 1
    omega

theorem find_first_of_split (pre cur s : List Char)
    (hcur : ∀ c ∈ cur, isSeparator c = false) :
    find_first_of (pre ++ cur ++ s) [';', ':', '@', '$'] pre.length
      = find_first_of_from [';', ':', '@', '$'] s (pre.length + cur.length) := by
  unfold find_first_of
  rw [List.append_assoc, List.drop_left]
  exact find_first_of_from_skip _ cur s pre.length
    (fun c hc => by rw [separators_contains]; exact hcur c hc)

theorem DynaLoadData_scan_eq (s pre cur : List Char) (fuel : Nat) (lists : DynaLists)
    (hcur : ∀ c ∈ cur, isSeparator c = false) (hfuel : s.length < fuel) :
    Level.DynaLoadData_scan (pre ++ cur ++ s) fuel pre.length lists
      = .ok ((tokensAfter s cur).foldl (fun l t => l.classify t.1 t.2) lists) := by
  induction s generalizing pre cur fuel lists with
  | nil =>
    obtain ⟨f, rfl⟩ : ∃ f, fuel = f + 1 := ⟨fuel - 1, by simp at hfuel; omega⟩
    unfold Level.DynaLoadData_scan
    rw [find_first_of_split pre cur [] hcur]
    simp [find_first_of_from, tokensAfter]
  | cons c s ih =>
    obtain ⟨f, rfl⟩ : ∃ f, fuel = f + 1 := ⟨fuel - 1, by simp at hfuel; omega⟩
    by_cases hc : isSeparator c = true
    · unfold Level.DynaLoadData_scan
      rw [find_first_of_split pre cur (c :: s) hcur]
      simp only [find_first_of_from, separators_contains, hc, if_true]
      have hsub : substr (pre ++ cur ++ c :: s) pre.length (pre.length + cur.length - pre.length)
          = .ok cur := by
        simp [substr, List.append_assoc, List.drop_left]
      have hat : vecAt (pre ++ cur ++ c :: s) (pre.length + cur.length) = .ok c := by
        have h1 : (pre ++ cur ++ c :: s)[pre.length + cur.length]? = some c := by
          rw [List.getElem?_append_right (by simp)]
          simp
        unfold vecAt
        rw [h1]
      rw [hsub, hat]
      simp only [tokensAfter, hc, if_true, List.foldl_cons]
      have := ih (pre ++ cur ++ [c]) [] f (lists.classify c cur) (by simp) (by
        simp only [List.length_cons] at hfuel; omega)
      simp only [List.append_nil, List.append_assoc, List.singleton_append, List.length_append,
        List.length_cons, List.length_nil, Nat.zero_add] at this
      simp only [List.append_assoc] 
      rw [← this]
      rfl
    · have hc' : isSeparator c = false := by simpa using hc
      have := ih pre (cur ++ [c]) (f + 1) lists (by
        intro x hx
        rcases List.mem_append.1 hx with h | h
        · exact hcur x h
        · simp at h; subst h; exact hc') (by
        simp only [List.length_cons] at hfuel; omega)
      simp only [List.append_assoc, List.singleton_append] at this
      simp only [List.append_assoc, tokensAfter, hc', Bool.false_eq_true, if_false]
      exact this

theorem separatedTokens_from (s pre cur : List Char)
    (hcur : ∀ c ∈ cur, isSeparator c = false) :
    List.zipWith (fun start pc => (pc.2, ((pre ++ cur ++ s).drop start).take (pc.1 - start)))
        (pre.length ::
          ((List.enumFrom (pre.length + cur.length) s).filter (fun pc => isSeparator pc.2)).map
            (fun pc => pc.1 + 1))
        ((List.enumFrom (pre.length + cur.length) s).filter (fun pc => isSeparator pc.2))
      = tokensAfter s cur := by
  induction s generalizing pre cur with
  | nil => simp [tokensAfter]
  | cons c s ih =>
    by_cases hc : isSeparator c = true
    · have := ih (pre ++ cur ++ [c]) [] (by simp)
      simp only [List.append_nil, List.append_assoc, List.singleton_append, List.length_append,
        List.length_cons, List.length_nil, Nat.zero_add, Nat.add_zero] at this
      simp only [List.enumFrom_cons, List.filter_cons, hc, if_true, List.map_cons,
        List.zipWith_cons_cons, tokensAfter, List.append_assoc]
      rw [Nat.add_assoc, this]
      simp [List.drop_left]
    · have hc' : isSeparator c = false := by simpa using hc
      have := ih pre (cur ++ [c]) (by
        intro x hx
        rcases List.mem_append.1 hx with h | h
        · exact hcur x h
        · simp at h; subst h; exact hc')
      simp only [List.append_assoc, List.singleton_append, List.length_append,
        List.length_cons, List.length_nil, Nat.zero_add] at this
      simp only [List.enumFrom_cons, List.filter_cons, hc', Bool.false_eq_true, if_false,
        tokensAfter, List.append_assoc]
      rw [Nat.add_assoc]
      exact this

theorem separatedTokens_eq (s : List Char) : separatedTokens s = tokensAfter s [] := by
  have := separatedTokens_from s [] [] (by simp)
  simpa [separatedTokens, tokenStarts, separatorOccurrences, List.enum] using this

theorem tokensAfter_length (s cur : List Char) :
    (tokensAfter s cur).length = s.countP isSeparator := by
  induction s generalizing cur with
  | nil => rfl
  | cons c s ih =>
    by_cases hc : isSeparator c = true
    · simp [tokensAfter, hc, ih]
    · have hc' : isSeparator c = false := by simpa using hc
      simp [tokensAfter, hc', ih]

theorem tokensAfter_separator (s cur : List Char) :
    ∀ t ∈ tokensAfter s cur, isSeparator t.1 = true := by
  induction s generalizing cur with
  | nil => simp [tokensAfter]
  | cons c s ih =>
    by_cases hc : isSeparator c = true
    · intro t ht
      simp only [tokensAfter, hc, if_true, List.mem_cons] at ht
      rcases ht with rfl | ht
      · exact hc
      · exact ih _ t ht
    · have hc' : isSeparator c = false := by simpa using hc
      intro t ht
      simp only [tokensAfter, hc', Bool.false_eq_true, if_false] at ht
      exact ih _ t ht

theorem tokensAfter_tail (s tail cur : List Char) (htail : ∀ c ∈ tail, isSeparator c = false) :
    tokensAfter (s ++ tail) cur = tokensAfter s cur := by
  induction s generalizing cur with
  | nil =>
    induction tail generalizing cur with
    | nil => rfl
    | cons c tail ih =>
      have hc : isSeparator c = false := htail c (List.mem_cons_self _ _)
      simp only [List.nil_append, tokensAfter, hc, Bool.false_eq_true, if_false]
      have := ih (fun x hx => htail x (List.mem_cons_of_mem _ hx)) (cur ++ [c])
      simpa [tokensAfter] using this
  | cons c s ih =>
    by_cases hc : isSeparator c = true
    · simp [tokensAfter, hc, ih]
    · have hc' : isSeparator c = false := by simpa using hc
      simp [tokensAfter, hc', ih]

theorem classify_foldl (toks : List (Char × List Char)) (lists : DynaLists) :
    toks.foldl (fun l t => l.classify t.1 t.2) lists
      = { regionsLoad := lists.regionsLoad
            ++ (toks.filter (fun t => t.1 = ';')).map (fun t => t.2),
          regionsUnload := lists.regionsUnload
            ++ (toks.filter (fun t => t.1 = ':')).map (fun t => t.2),
          interiorsLoad := lists.interiorsLoad
            ++ (toks.filter (fun t => t.1 = '@')).map (fun t => t.2),
          interiorsUnload := lists.interiorsUnload
            ++ (toks.filter (fun t => t.1 = '$')).map (fun t => t.2) } := by
  induction toks generalizing lists with
  | nil => simp
  | cons t toks ih =>
    obtain ⟨c, file⟩ := t
    rw [List.foldl_cons, ih]
    simp only [DynaLists.classify, List.filter_cons]
    by_cases h1 : c = ';'
    · subst h1; simp
    · by_cases h2 : c = ':'
      · subst h2; simp
      · by_cases h3 : c = '@'
        · subst h3; simp
        · by_cases h4 : c = '$'
          · subst h4; simp
          · simp [h1, h2, h3, h4]

theorem separator_filters_length (toks : List (Char × List Char))
    (h : ∀ t ∈ toks, isSeparator t.1 = true) :
    (toks.filter (fun t => t.1 = ';')).length + (toks.filter (fun t => t.1 = ':')).length
      + (toks.filter (fun t => t.1 = '@')).length + (toks.filter (fun t => t.1 = '$')).length
      = toks.length := by
  induction toks with
  | nil => rfl
  | cons t toks ih =>
    have ih := ih (fun x hx => h x (List.mem_cons_of_mem _ hx))
    have ht := h t (List.mem_cons_self _ _)
    obtain ⟨c, file⟩ := t
    simp only [isSeparator, Bool.or_eq_true, decide_eq_true_eq] at ht
    simp only [List.filter_cons, List.length_cons]
    rcases ht with ((rfl | rfl) | rfl) | rfl <;> simp <;> omega

theorem DynaLoadData_lists_eq (s : List Char) :
    Level.DynaLoadData_lists s
      = .ok ⟨tokensEndedBy ';' s, tokensEndedBy ':' s, tokensEndedBy '@' s,
          tokensEndedBy '$' s⟩ := by
  have := DynaLoadData_scan_eq s [] [] (s.length + 1) ⟨[], [], [], []⟩ (by simp) (by omega)
  simp only [List.nil_append, List.length_nil] at this
  unfold Level.DynaLoadData_lists
  rw [this, classify_foldl]
  simp [tokensEndedBy, separatedTokens_eq]

theorem unloadRegion_foldl (files : List (List Char)) (self : Level) :
    files.foldl Level.unloadRegion self
      = { self with cout := self.cout
            ++ files.map (fun f => "unload region: " ++ String.mk f ++ "\n") } := by
  induction files generalizing self with
  | nil => simp
  | cons f files ih => simp [List.foldl_cons, ih, Level.unloadRegion]

theorem loadRegion_foldl (files : List (List Char)) (self : Level) :
    files.foldl Level.loadRegion self
      = { self with cout := self.cout
            ++ files.map (fun f => "load region: " ++ String.mk f ++ "\n") } := by
  induction files generalizing self with
  | nil => simp
  | cons f files ih => simp [List.foldl_cons, ih, Level.loadRegion]

/-- C10. For every string `s` the scan of `Level::DynaLoadData` ends without an
out-of-range access and without using up its iteration budget, and it leaves
in each of its four lists exactly the tokens ended by that list's separator
(`;` region load, `:` region unload, `@` interior load, `$` interior unload),
left to right, a token being the text between the previous separator (or the
start of `s`) and a separator. The four lists together hold as many tokens as
`s` has separator characters; text after the last separator goes to no list
(appending separator-free text to `s` changes no list); and `DynaLoadData`
then performs the region unloads, in order, before the region loads, in
order. -/
theorem DynaLoadData_classifies (self : Level) (s tail : List Char) :
    Level.DynaLoadData_lists s
        = .ok ⟨tokensEndedBy ';' s, tokensEndedBy ':' s, tokensEndedBy '@' s,
            tokensEndedBy '$' s⟩
      ∧ (tokensEndedBy ';' s).length + (tokensEndedBy ':' s).length
          + (tokensEndedBy '@' s).length + (tokensEndedBy '$' s).length
        = s.countP isSeparator
      ∧ (separatedTokens s).length = (separatorOccurrences s).length
      ∧ (separatorOccurrences s).length = s.countP isSeparator
      ∧ Level.DynaLoadData_lists (s ++ tail.filter (fun c => !isSeparator c))
        = Level.DynaLoadData_lists s
      ∧ Level.DynaLoadData self s
        = .ok { self with cout := self.cout
            ++ (tokensEndedBy ':' s).map (fun f => "unload region: " ++ String.mk f ++ "\n")
            ++ (tokensEndedBy ';' s).map (fun f => "load region: " ++ String.mk f ++ "\n") } := by
  have hocc : (separatorOccurrences s).length = s.countP isSeparator := by
    have h := tokensAfter_length s []
    rw [← separatedTokens_eq] at h
    have h2 : (separatedTokens s).length = (separatorOccurrences s).length := by
      simp [separatedTokens, tokenStarts]
    omega
  refine ⟨DynaLoadData_lists_eq s, ?_, ?_, hocc, ?_, ?_⟩
  · have h := separator_filters_length (separatedTokens s) (by
      rw [separatedTokens_eq]; exact tokensAfter_separator s [])
    simp only [tokensEndedBy, List.length_map]
    rw [h, separatedTokens_eq, tokensAfter_length]
  · simp [separatedTokens, tokenStarts]
  · rw [DynaLoadData_lists_eq, DynaLoadData_lists_eq]
    have h : separatedTokens (s ++ tail.filter (fun c => !isSeparator c)) = separatedTokens s := by
      rw [separatedTokens_eq, separatedTokens_eq]
      exact tokensAfter_tail s _ [] (by
        intro c hc
        have := (List.mem_filter.1 hc).2
        simpa using this)
    simp only [tokensEndedBy, h]
  · unfold Level.DynaLoadData
    rw [DynaLoadData_lists_eq]
    simp only [unloadRegion_foldl, loadRegion_foldl, List.append_assoc]

/-! ## `TextureLoader` -/

theorem u32OfBytes_u32le (v : Nat) (hv : v < 4294967296) : u32OfBytes (u32le v) = v := by
  simp only [u32OfBytes, u32le, List.getD_cons_zero, List.getD_cons_succ]
  omega

theorem ReadBytes_cursorAt (before x rest : List Nat) (frames : List ChunkFrame) :
    (cursorAt before (x ++ rest) frames).ReadBytes x.length
      = .ok (x, cursorAt (before ++ x) rest frames) := by
  simp [ChunkFile.ReadBytes, cursorAt, List.drop_left, List.take_left]

theorem ReadU32_cursorAt (before rest : List Nat) (frames : List ChunkFrame) (v : Nat)
    (hv : v < 4294967296) :
    (cursorAt before (u32le v ++ rest) frames).ReadU32
      = .ok (v, cursorAt (before ++ u32le v) rest frames) := by
  have h := ReadBytes_cursorAt before (u32le v) rest frames
  have hlen : (u32le v).length = 4 := rfl
  rw [hlen] at h
  simp only [ChunkFile.ReadU32, h, u32OfBytes_u32le v hv]

theorem ReadU8String_cursorAt (before rest : List Nat) (frames : List ChunkFrame) (s : List Nat)
    (hs : s.length < 256) :
    (cursorAt before (u8string s ++ rest) frames).ReadU8String
      = .ok (s, cursorAt (before ++ u8string s) rest frames) := by
  have h1 := ReadBytes_cursorAt before [s.length] (s ++ rest) frames
  have h2 := ReadBytes_cursorAt (before ++ [s.length]) s rest frames
  simp only [List.length_singleton, List.singleton_append] at h1
  have hmod : s.length % 256 = s.length := Nat.mod_eq_of_lt hs
  simp only [ChunkFile.ReadU8String, u8string, List.cons_append, h1, List.getD_cons_zero, hmod, h2]
  simp

theorem Seek_cursorAt (before x rest : List Nat) (frames : List ChunkFrame) (n : Nat)
    (hx : x.length = n) :
    (cursorAt before (x ++ rest) frames).Seek n = .ok (cursorAt (before ++ x) rest frames) := by
  subst hx
  simp [ChunkFile.Seek, cursorAt]

theorem BeginChunk_cursorAt (before rest : List Nat) (frames : List ChunkFrame) (tag len : Nat)
    (htag : tag < 4294967296) (hlen : len < 4294967296) :
    (cursorAt before (u32le tag ++ (u32le len ++ rest)) frames).BeginChunk
      = .ok (tag, cursorAt (before ++ u32le tag ++ u32le len) rest
          (⟨before.length + 8, len⟩ :: frames)) := by
  simp only [ChunkFile.BeginChunk, ReadU32_cursorAt _ _ _ _ htag, ReadU32_cursorAt _ _ _ _ hlen]
  simp [cursorAt, u32le]

theorem EndChunk_cursorAt (before rest : List Nat) (outer : List ChunkFrame) (start len : Nat)
    (h1 : before.length ≤ start + len) (h2 : start + len ≤ before.length + rest.length) :
    (cursorAt before rest (⟨start, len⟩ :: outer)).EndChunk
      = .ok (cursorAt (before ++ rest.take (start + len - before.length))
          (rest.drop (start + len - before.length)) outer) := by
  have h3 : ¬ (before.length > start + len) := by omega
  have h4 : ¬ (start + len > before.length + rest.length) := by omega
  simp only [ChunkFile.EndChunk, cursorAt, h3, h4, List.length_append, if_false]
  simp only [List.append_assoc, List.take_append_drop, List.length_take]
  congr 2
  omega

theorem EndChunk_cursorAt_split (before x rest : List Nat) (outer : List ChunkFrame)
    (start len : Nat) (hend : before.length + x.length = start + len) :
    (cursorAt before (x ++ rest) (⟨start, len⟩ :: outer)).EndChunk
      = .ok (cursorAt (before ++ x) rest outer) := by
  rw [EndChunk_cursorAt _ _ _ _ _ (by omega) (by simp only [List.length_append]; omega)]
  have hk : start + len - before.length = x.length := by omega
  rw [hk, List.take_left, List.drop_left]

theorem pngRead_cursorAt {α : Type} (reader : List Nat → Option (Nat × α))
    (before rest : List Nat) (frames : List ChunkFrame) (n : Nat) (a : α)
    (h : reader rest = some (n, a)) (hn : n ≤ rest.length) :
    pngRead reader (cursorAt before rest frames)
      = .ok (a, cursorAt (before ++ rest.take n) (rest.drop n) frames) := by
  simp only [pngRead, cursorAt, List.drop_left, h]
  simp [ChunkFile.ReadBytes, hn, Nat.min_eq_left hn]

theorem LoadImage_unsupported (NDEBUG : Bool) (png : PngLib) (ids : ChunkIDs)
    (before after : List Nat) (frames : List ChunkFrame) (name unused : List Nat)
    (hasAlpha size : Nat) (stream : List Nat) (n : Nat) (header : PngHeader)
    (hname : name.length < 256) (hunused : unused.length = 16)
    (hhasAlpha : hasAlpha < 4294967296) (hsize : size < 4294967296)
    (hid : ids.TextureImageData < 4294967296)
    (hlen : (imageDataPayload size stream).length < 4294967296)
    (hinfo : png.read_info (stream ++ after) = some (n, header))
    (hn : n ≤ stream.length)
    (hcolor : header.color_type ≠ PNG_COLOR_TYPE_PALETTE
      ∧ header.color_type ≠ PNG_COLOR_TYPE_RGB
      ∧ header.color_type ≠ PNG_COLOR_TYPE_RGB_ALPHA) :
    TextureLoader.LoadImage NDEBUG png ids
        (cursorAt before (imagePayload ids name 14000 unused hasAlpha 1 size stream ++ after)
          frames)
      = .ok (none,
          cursorAt
            (before ++ u8string name ++ u32le 14000 ++ unused ++ u32le hasAlpha ++ u32le 1
              ++ u32le ids.TextureImageData ++ u32le (imageDataPayload size stream).length
              ++ u32le size ++ stream.take n)
            (stream.drop n ++ after)
            (⟨before.length + name.length + 37,
                (imageDataPayload size stream).length⟩ :: frames)) := by
  unfold TextureLoader.LoadImage
  simp only [imagePayload, chunkBytes, imageDataPayload, List.append_assoc] at hlen ⊢
  simp only [bind, Except.bind, pure, Except.pure,
    ReadU8String_cursorAt _ _ _ _ hname,
    ReadU32_cursorAt _ _ _ 14000 (by omega),
    ReadU32_cursorAt _ _ _ 1 (by omega),
    ReadU32_cursorAt _ _ _ _ hhasAlpha,
    ReadU32_cursorAt _ _ _ _ hsize,
    Seek_cursorAt _ unused _ _ 16 hunused,
    BeginChunk_cursorAt _ _ _ _ _ hid hlen,
    pngRead_cursorAt png.read_info _ (stream ++ after) _ n header hinfo
      (by simp only [List.length_append]; omega),
    assert]
  obtain ⟨c1, c2, c3⟩ := hcolor
  simp only [bne_iff_ne, ne_eq, c1, c2, c3, not_false_eq_true, decide_True, Bool.and_self,
    if_true, List.take_append_of_le_length hn, List.drop_append_of_le_length hn,
    List.append_assoc]
  have hstart : (before ++ (u8string name ++ (u32le 14000 ++ (unused ++ (u32le hasAlpha
      ++ u32le 1))))).length + 8 = before.length + name.length + 37 := by
    simp only [List.length_append, u8string, u32le, List.length_cons, List.length_nil, hunused]
    omega
  rw [hstart]
  simp [c1, c2, c3]

theorem LoadImage_supported (NDEBUG : Bool) (png : PngLib) (ids : ChunkIDs)
    (before after : List Nat) (frames : List ChunkFrame) (name unused : List Nat)
    (hasAlpha size : Nat) (stream : List Nat) (n m : Nat) (header : PngHeader)
    (image : List Nat)
    (hname : name.length < 256) (hunused : unused.length = 16)
    (hhasAlpha : hasAlpha < 4294967296) (hsize : size < 4294967296)
    (hid : ids.TextureImageData < 4294967296)
    (hlen : (imageDataPayload size stream).length < 4294967296)
    (hinfo : png.read_info (stream ++ after) = some (n, header))
    (hcolor : header.color_type = PNG_COLOR_TYPE_PALETTE
      ∨ header.color_type = PNG_COLOR_TYPE_RGB
      ∨ header.color_type = PNG_COLOR_TYPE_RGB_ALPHA)
    (himage : png.read_image header (TextureLoader.LoadImage_transforms header)
      (stream.drop n ++ after) = some (m, image))
    (hnm : n + m ≤ stream.length) :
    TextureLoader.LoadImage NDEBUG png ids
        (cursorAt before (imagePayload ids name 14000 unused hasAlpha 1 size stream ++ after)
          frames)
      = .ok (some (Texture.Create header.width header.height
            (TextureLoader.LoadImage_glFormat
              (png.updated_color_type header (TextureLoader.LoadImage_transforms header)))
            image),
          cursorAt (before ++ imagePayload ids name 14000 unused hasAlpha 1 size stream)
            after frames) := by
  have hn : n ≤ stream.length := by omega
  unfold TextureLoader.LoadImage
  simp only [imagePayload, chunkBytes, imageDataPayload, List.append_assoc] at hlen ⊢
  simp only [bind, Except.bind, pure, Except.pure,
    ReadU8String_cursorAt _ _ _ _ hname,
    ReadU32_cursorAt _ _ _ 14000 (by omega),
    ReadU32_cursorAt _ _ _ 1 (by omega),
    ReadU32_cursorAt _ _ _ _ hhasAlpha,
    ReadU32_cursorAt _ _ _ _ hsize,
    Seek_cursorAt _ unused _ _ 16 hunused,
    BeginChunk_cursorAt _ _ _ _ _ hid hlen,
    pngRead_cursorAt png.read_info _ (stream ++ after) _ n header hinfo
      (by simp only [List.length_append]; omega),
    assert]
  have hcond : (header.color_type != PNG_COLOR_TYPE_PALETTE
      && header.color_type != PNG_COLOR_TYPE_RGB
      && header.color_type != PNG_COLOR_TYPE_RGB_ALPHA) = false := by
    rcases hcolor with h | h | h <;> simp [h]
  simp only [List.take_append_of_le_length hn, List.drop_append_of_le_length hn,
    List.append_assoc, hcond]
  rw [pngRead_cursorAt _ _ (stream.drop n ++ after) _ m image himage
    (by simp only [List.length_append, List.length_drop]; omega)]
  have hm : m ≤ (stream.drop n).length := by simp only [List.length_drop]; omega
  simp only [List.take_append_of_le_length hm, List.drop_append_of_le_length hm]
  rw [EndChunk_cursorAt_split _ (List.drop m (List.drop n stream)) after _ _ _
    (by simp only [List.length_append, u8string, u32le, List.length_cons, List.length_nil,
          hunused, List.length_take, List.length_drop]; omega)]
  have hjoin : List.take n stream ++ (List.take m (List.drop n stream)
      ++ List.drop m (List.drop n stream)) = stream := by
    rw [List.take_append_drop, List.take_append_drop]
  simp [hjoin]

theorem u32le_length (v : Nat) : (u32le v).length = 4 := rfl

theorem u8string_length (s : List Nat) : (u8string s).length = s.length + 1 := rfl

theorem chunkBytes_length (tag : Nat) (payload : List Nat) :
    (chunkBytes tag payload).length = payload.length + 8 := by
  simp only [chunkBytes, List.length_append, u32le_length]
  omega

theorem imagePayload_length (ids : ChunkIDs) (name : List Nat) (version : Nat)
    (unused : List Nat) (hasAlpha format size : Nat) (stream : List Nat) :
    (imagePayload ids name version unused hasAlpha format size stream).length
      = name.length + unused.length + stream.length + 25 := by
  simp only [imagePayload, imageDataPayload, chunkBytes_length, List.length_append,
    u32le_length, u8string_length]
  omega

theorem ChunksRemaining_cursorAt (before rest : List Nat) (outer : List ChunkFrame)
    (start len : Nat) :
    (cursorAt before rest (⟨start, len⟩ :: outer)).ChunksRemaining
      = decide (before.length < start + len) := rfl

theorem LoadEntity_chunks_done (NDEBUG : Bool) (png : PngLib) (ids : ChunkIDs)
    (fuel : Nat) (texture : Option Texture) (before rest : List Nat)
    (outer : List ChunkFrame) (start len : Nat) (hfuel : 1 ≤ fuel)
    (hend : start + len ≤ before.length) :
    TextureLoader.LoadEntity_chunks NDEBUG png ids fuel
        (cursorAt before rest (⟨start, len⟩ :: outer)) texture
      = .ok (texture, cursorAt before rest (⟨start, len⟩ :: outer)) := by
  obtain ⟨k, rfl⟩ : ∃ k, fuel = k + 1 := ⟨fuel - 1, by omega⟩
  have hrem : decide (before.length < start + len) = false := by
    simp only [decide_eq_false_iff_not]; omega
  unfold TextureLoader.LoadEntity_chunks
  simp only [ChunksRemaining_cursorAt, hrem, Bool.false_eq_true, if_false]

theorem LoadEntity_chunks_unsupported (NDEBUG : Bool) (png : PngLib) (ids : ChunkIDs)
    (fuel : Nat) (texture : Option Texture)
    (before after : List Nat) (outer : List ChunkFrame) (start len : Nat)
    (name unused : List Nat) (hasAlpha size : Nat) (stream : List Nat) (n : Nat)
    (header : PngHeader)
    (hfuel : 2 ≤ fuel)
    (hframe : before.length
      + (chunkBytes ids.TextureImage
          (imagePayload ids name 14000 unused hasAlpha 1 size stream)).length = start + len)
    (hname : name.length < 256) (hunused : unused.length = 16)
    (hhasAlpha : hasAlpha < 4294967296) (hsize : size < 4294967296)
    (hid : ids.TextureImage < 4294967296) (hidData : ids.TextureImageData < 4294967296)
    (hlen : (imagePayload ids name 14000 unused hasAlpha 1 size stream).length < 4294967296)
    (hinfo : png.read_info (stream ++ after) = some (n, header))
    (hn : n ≤ stream.length)
    (hcolor : header.color_type ≠ PNG_COLOR_TYPE_PALETTE
      ∧ header.color_type ≠ PNG_COLOR_TYPE_RGB
      ∧ header.color_type ≠ PNG_COLOR_TYPE_RGB_ALPHA) :
    TextureLoader.LoadEntity_chunks NDEBUG png ids fuel
        (cursorAt before
          (chunkBytes ids.TextureImage (imagePayload ids name 14000 unused hasAlpha 1 size stream)
            ++ after)
          (⟨start, len⟩ :: outer)) texture
      = .ok (none,
          cursorAt
            (before ++ chunkBytes ids.TextureImage
              (imagePayload ids name 14000 unused hasAlpha 1 size stream))
            after
            (⟨before.length + 8, (imagePayload ids name 14000 unused hasAlpha 1 size stream).length⟩
              :: ⟨start, len⟩ :: outer)) := by
  obtain ⟨k, rfl⟩ : ∃ k, fuel = k + 1 + 1 := ⟨fuel - 2, by omega⟩
  have hdata : (imageDataPayload size stream).length < 4294967296 := by
    rw [imagePayload_length] at hlen
    simp only [imageDataPayload, List.length_append, u32le_length]
    omega
  rw [chunkBytes_length] at hframe
  have hrem : decide (before.length < start + len) = true := by
    simp only [decide_eq_true_eq]; omega
  unfold TextureLoader.LoadEntity_chunks
  simp only [chunkBytes, List.append_assoc, ChunksRemaining_cursorAt, hrem, if_true,
    bind, Except.bind, BeginChunk_cursorAt _ _ _ _ _ hid hlen, beq_self_eq_true]
  have himg := LoadImage_unsupported NDEBUG png ids
    (before ++ (u32le ids.TextureImage
      ++ u32le (imagePayload ids name 14000 unused hasAlpha 1 size stream).length)) after
    (⟨before.length + 8, (imagePayload ids name 14000 unused hasAlpha 1 size stream).length⟩
      :: ⟨start, len⟩ :: outer)
    name unused hasAlpha size stream n header hname hunused hhasAlpha hsize hidData hdata hinfo hn
    hcolor
  rw [himg]
  simp only []
  rw [EndChunk_cursorAt_split _ (List.drop n stream) after _ _ _
    (by
      simp only [List.length_append, u8string_length, u32le_length, List.length_take,
        List.length_drop, imageDataPayload, hunused]
      omega)]
  simp only []
  rw [LoadEntity_chunks_done NDEBUG png ids (k + 1) none _ after _ _ _ (by omega)
    (by
      simp only [imagePayload_length, List.length_append, u8string_length, u32le_length,
        List.length_take, List.length_drop, hunused]
      omega)]
  simp [imagePayload, chunkBytes, imageDataPayload]

theorem texturePayload_length (name : List Nat) (version : Nat) (unused children : List Nat) :
    (texturePayload name version unused children).length
      = name.length + unused.length + children.length + 5 := by
  simp only [texturePayload, List.length_append, u32le_length, u8string_length]
  omega

theorem LoadEntity_unsupported (NDEBUG : Bool) (png : PngLib) (ids : ChunkIDs)
    (before after : List Nat) (outer : List ChunkFrame)
    (tname tunused name unused : List Nat) (hasAlpha size : Nat) (stream : List Nat) (n : Nat)
    (header : PngHeader)
    (htname : tname.length < 256) (htunused : tunused.length = 32)
    (hname : name.length < 256) (hunused : unused.length = 16)
    (hhasAlpha : hasAlpha < 4294967296) (hsize : size < 4294967296)
    (hid : ids.TextureImage < 4294967296) (hidData : ids.TextureImageData < 4294967296)
    (hlen : (imagePayload ids name 14000 unused hasAlpha 1 size stream).length < 4294967296)
    (hinfo : png.read_info (stream ++ after) = some (n, header))
    (hn : n ≤ stream.length)
    (hcolor : header.color_type ≠ PNG_COLOR_TYPE_PALETTE
      ∧ header.color_type ≠ PNG_COLOR_TYPE_RGB
      ∧ header.color_type ≠ PNG_COLOR_TYPE_RGB_ALPHA) :
    TextureLoader.LoadEntity NDEBUG png ids
        (enteredChunk before
          (texturePayload tname 14000 tunused
            (chunkBytes ids.TextureImage
              (imagePayload ids name 14000 unused hasAlpha 1 size stream)))
          after outer)
      = .ok (none,
          cursorAt
            (before ++ texturePayload tname 14000 tunused
              (chunkBytes ids.TextureImage
                (imagePayload ids name 14000 unused hasAlpha 1 size stream)))
            after
            (⟨before.length + tname.length + 45,
                (imagePayload ids name 14000 unused hasAlpha 1 size stream).length⟩
              :: ⟨before.length,
                  (texturePayload tname 14000 tunused
                    (chunkBytes ids.TextureImage
                      (imagePayload ids name 14000 unused hasAlpha 1 size stream))).length⟩
              :: outer)) := by
  unfold TextureLoader.LoadEntity enteredChunk
  rw [texturePayload_length]
  simp only [texturePayload, List.append_assoc, bind, Except.bind, pure, Except.pure,
    ReadU8String_cursorAt _ _ _ _ htname,
    ReadU32_cursorAt _ _ _ 14000 (by omega),
    Seek_cursorAt _ tunused _ _ 32 htunused, assert]
  have hloop := LoadEntity_chunks_unsupported NDEBUG png ids
    ((cursorAt (before ++ (u8string tname ++ (u32le 14000 ++ tunused)))
        (chunkBytes ids.TextureImage (imagePayload ids name 14000 unused hasAlpha 1 size stream)
          ++ after)
        (⟨before.length, tname.length + tunused.length
          + (chunkBytes ids.TextureImage
              (imagePayload ids name 14000 unused hasAlpha 1 size stream)).length + 5⟩
          :: outer)).bytes.length + 1)
    none (before ++ (u8string tname ++ (u32le 14000 ++ tunused))) after outer before.length
    (tname.length + tunused.length
      + (chunkBytes ids.TextureImage
          (imagePayload ids name 14000 unused hasAlpha 1 size stream)).length + 5)
    name unused hasAlpha size stream n header
    (by simp only [cursorAt, List.length_append, chunkBytes_length]; omega)
    (by simp only [List.length_append, u8string_length, u32le_length]; omega)
    hname hunused hhasAlpha hsize hid hidData hlen hinfo hn hcolor
  simp only [List.append_assoc] at hloop
  rw [hloop]
  simp only [texturePayload, List.append_assoc, List.length_append, u8string_length,
    u32le_length, htunused]
  have hstart : before.length + (tname.length + 1 + (4 + 32)) + 8
      = before.length + tname.length + 45 := by omega
  rw [hstart]
  simp

theorem LoadEntity_chunks_supported (NDEBUG : Bool) (png : PngLib) (ids : ChunkIDs)
    (fuel : Nat) (texture : Option Texture)
    (before after : List Nat) (outer : List ChunkFrame) (start len : Nat)
    (name unused : List Nat) (hasAlpha size : Nat) (stream : List Nat) (n m : Nat)
    (header : PngHeader) (image : List Nat)
    (hfuel : 2 ≤ fuel)
    (hframe : before.length
      + (chunkBytes ids.TextureImage
          (imagePayload ids name 14000 unused hasAlpha 1 size stream)).length = start + len)
    (hname : name.length < 256) (hunused : unused.length = 16)
    (hhasAlpha : hasAlpha < 4294967296) (hsize : size < 4294967296)
    (hid : ids.TextureImage < 4294967296) (hidData : ids.TextureImageData < 4294967296)
    (hlen : (imagePayload ids name 14000 unused hasAlpha 1 size stream).length < 4294967296)
    (hinfo : png.read_info (stream ++ after) = some (n, header))
    (hcolor : header.color_type = PNG_COLOR_TYPE_PALETTE
      ∨ header.color_type = PNG_COLOR_TYPE_RGB
      ∨ header.color_type = PNG_COLOR_TYPE_RGB_ALPHA)
    (himage : png.read_image header (TextureLoader.LoadImage_transforms header)
      (stream.drop n ++ after) = some (m, image))
    (hnm : n + m ≤ stream.length) :
    TextureLoader.LoadEntity_chunks NDEBUG png ids fuel
        (cursorAt before
          (chunkBytes ids.TextureImage (imagePayload ids name 14000 unused hasAlpha 1 size stream)
            ++ after)
          (⟨start, len⟩ :: outer)) texture
      = .ok (some (Texture.Create header.width header.height
            (TextureLoader.LoadImage_glFormat
              (png.updated_color_type header (TextureLoader.LoadImage_transforms header)))
            image),
          cursorAt
            (before ++ chunkBytes ids.TextureImage
              (imagePayload ids name 14000 unused hasAlpha 1 size stream))
            after (⟨start, len⟩ :: outer)) := by
  obtain ⟨k, rfl⟩ : ∃ k, fuel = k + 1 + 1 := ⟨fuel - 2, by omega⟩
  have hdata : (imageDataPayload size stream).length < 4294967296 := by
    rw [imagePayload_length] at hlen
    simp only [imageDataPayload, List.length_append, u32le_length]
    omega
  rw [chunkBytes_length] at hframe
  have hrem : decide (before.length < start + len) = true := by
    simp only [decide_eq_true_eq]; omega
  unfold TextureLoader.LoadEntity_chunks
  simp only [chunkBytes, List.append_assoc, ChunksRemaining_cursorAt, hrem, if_true,
    bind, Except.bind, BeginChunk_cursorAt _ _ _ _ _ hid hlen, beq_self_eq_true]
  have himg := LoadImage_supported NDEBUG png ids
    (before ++ (u32le ids.TextureImage
      ++ u32le (imagePayload ids name 14000 unused hasAlpha 1 size stream).length)) after
    (⟨before.length + 8, (imagePayload ids name 14000 unused hasAlpha 1 size stream).length⟩
      :: ⟨start, len⟩ :: outer)
    name unused hasAlpha size stream n m header image hname hunused hhasAlpha hsize hidData hdata
    hinfo hcolor himage hnm
  rw [himg]
  simp only []
  have hend := EndChunk_cursorAt_split
    (before ++ (u32le ids.TextureImage
      ++ u32le (imagePayload ids name 14000 unused hasAlpha 1 size stream).length)
      ++ imagePayload ids name 14000 unused hasAlpha 1 size stream) [] after
    (⟨start, len⟩ :: outer) (before.length + 8)
    (imagePayload ids name 14000 unused hasAlpha 1 size stream).length
    (by simp only [List.length_append, u32le_length, List.length_nil]; omega)
  simp only [List.nil_append, List.append_nil] at hend
  rw [hend]
  simp only []
  rw [LoadEntity_chunks_done NDEBUG png ids (k + 1) _ _ after _ _ _ (by omega)
    (by simp only [List.length_append, u32le_length]; omega)]
  simp [List.append_assoc]

theorem LoadEntity_supported (NDEBUG : Bool) (png : PngLib) (ids : ChunkIDs)
    (before after : List Nat) (outer : List ChunkFrame)
    (tname tunused name unused : List Nat) (hasAlpha size : Nat) (stream : List Nat) (n m : Nat)
    (header : PngHeader) (image : List Nat)
    (htname : tname.length < 256) (htunused : tunused.length = 32)
    (hname : name.length < 256) (hunused : unused.length = 16)
    (hhasAlpha : hasAlpha < 4294967296) (hsize : size < 4294967296)
    (hid : ids.TextureImage < 4294967296) (hidData : ids.TextureImageData < 4294967296)
    (hlen : (imagePayload ids name 14000 unused hasAlpha 1 size stream).length < 4294967296)
    (hinfo : png.read_info (stream ++ after) = some (n, header))
    (hcolor : header.color_type = PNG_COLOR_TYPE_PALETTE
      ∨ header.color_type = PNG_COLOR_TYPE_RGB
      ∨ header.color_type = PNG_COLOR_TYPE_RGB_ALPHA)
    (himage : png.read_image header (TextureLoader.LoadImage_transforms header)
      (stream.drop n ++ after) = some (m, image))
    (hnm : n + m ≤ stream.length) :
    TextureLoader.LoadEntity NDEBUG png ids
        (enteredChunk before
          (texturePayload tname 14000 tunused
            (chunkBytes ids.TextureImage
              (imagePayload ids name 14000 unused hasAlpha 1 size stream)))
          after outer)
      = .ok (some ((Texture.Create header.width header.height
            (TextureLoader.LoadImage_glFormat
              (png.updated_color_type header (TextureLoader.LoadImage_transforms header)))
            image).SetName tname),
          cursorAt
            (before ++ texturePayload tname 14000 tunused
              (chunkBytes ids.TextureImage
                (imagePayload ids name 14000 unused hasAlpha 1 size stream)))
            after
            (⟨before.length,
                (texturePayload tname 14000 tunused
                  (chunkBytes ids.TextureImage
                    (imagePayload ids name 14000 unused hasAlpha 1 size stream))).length⟩
              :: outer)) := by
  unfold TextureLoader.LoadEntity enteredChunk
  rw [texturePayload_length]
  simp only [texturePayload, List.append_assoc, bind, Except.bind, pure, Except.pure,
    ReadU8String_cursorAt _ _ _ _ htname,
    ReadU32_cursorAt _ _ _ 14000 (by omega),
    Seek_cursorAt _ tunused _ _ 32 htunused, assert]
  have hloop := LoadEntity_chunks_supported NDEBUG png ids
    ((cursorAt (before ++ (u8string tname ++ (u32le 14000 ++ tunused)))
        (chunkBytes ids.TextureImage (imagePayload ids name 14000 unused hasAlpha 1 size stream)
          ++ after)
        (⟨before.length, tname.length + tunused.length
          + (chunkBytes ids.TextureImage
              (imagePayload ids name 14000 unused hasAlpha 1 size stream)).length + 5⟩
          :: outer)).bytes.length + 1)
    none (before ++ (u8string tname ++ (u32le 14000 ++ tunused))) after outer before.length
    (tname.length + tunused.length
      + (chunkBytes ids.TextureImage
          (imagePayload ids name 14000 unused hasAlpha 1 size stream)).length + 5)
    name unused hasAlpha size stream n m header image
    (by simp only [cursorAt, List.length_append, chunkBytes_length]; omega)
    (by simp only [List.length_append, u8string_length, u32le_length]; omega)
    hname hunused hhasAlpha hsize hid hidData hlen hinfo hcolor himage hnm
  simp only [List.append_assoc] at hloop
  rw [hloop]
  simp

theorem LoadImage_version_mismatch (png : PngLib) (ids : ChunkIDs)
    (before rest : List Nat) (frames : List ChunkFrame) (name : List Nat) (version : Nat)
    (hname : name.length < 256) (hversion : version < 4294967296)
    (hmismatch : version ≠ 14000) :
    TextureLoader.LoadImage false png ids
        (cursorAt before (u8string name ++ (u32le version ++ rest)) frames)
      = .error .assertionFailed := by
  unfold TextureLoader.LoadImage
  simp only [bind, Except.bind, ReadU8String_cursorAt _ _ _ _ hname,
    ReadU32_cursorAt _ _ _ _ hversion, assert]
  simp [hmismatch]

theorem chunksBytes_length_ge (cs : List (Nat × List Nat)) :
    cs.length ≤ (chunksBytes cs).length := by
  induction cs with
  | nil => simp [chunksBytes]
  | cons c cs ih =>
    simp only [chunksBytes, List.length_append, chunkBytes_length, List.length_cons]
    omega

theorem LoadEntity_chunks_skip (NDEBUG : Bool) (png : PngLib) (ids : ChunkIDs)
    (cs : List (Nat × List Nat)) (fuel : Nat) (texture : Option Texture)
    (before rest : List Nat) (outer : List ChunkFrame) (start len : Nat)
    (hcs : ∀ c ∈ cs, c.1 ≠ ids.TextureImage ∧ c.1 < 4294967296 ∧ c.2.length < 4294967296)
    (hframe : before.length + (chunksBytes cs).length ≤ start + len) :
    TextureLoader.LoadEntity_chunks NDEBUG png ids (fuel + cs.length)
        (cursorAt before (chunksBytes cs ++ rest) (⟨start, len⟩ :: outer)) texture
      = TextureLoader.LoadEntity_chunks NDEBUG png ids fuel
          (cursorAt (before ++ chunksBytes cs) rest (⟨start, len⟩ :: outer)) texture := by
  induction cs generalizing before with
  | nil => simp [chunksBytes]
  | cons c cs ih =>
    obtain ⟨hne, htag, hlen⟩ := hcs c (List.mem_cons_self _ _)
    simp only [chunksBytes, List.length_append, chunkBytes_length] at hframe
    have hrem : decide (before.length < start + len) = true := by
      simp only [decide_eq_true_eq]; omega
    have hbeq : (c.1 == ids.TextureImage) = false := by simpa using hne
    have hfuel : fuel + (c :: cs).length = (fuel + cs.length) + 1 := by
      simp only [List.length_cons]; omega
    rw [hfuel, TextureLoader.LoadEntity_chunks]
    simp only [chunksBytes, chunkBytes, List.append_assoc, ChunksRemaining_cursorAt, hrem,
      if_true, bind, Except.bind, BeginChunk_cursorAt _ _ _ _ _ htag hlen, hbeq,
      Bool.false_eq_true, if_false, pure, Except.pure]
    rw [EndChunk_cursorAt_split _ c.2 (chunksBytes cs ++ rest) _ _ _
      (by simp only [List.length_append, u32le_length])]
    simp only []
    have := ih (before ++ (u32le c.1 ++ u32le c.2.length) ++ c.2)
      (fun x hx => hcs x (List.mem_cons_of_mem _ hx))
      (by simp only [List.length_append, u32le_length]; omega)
    simp only [List.append_assoc] at this ⊢
    rw [this]

theorem LoadEntity_chunks_version_mismatch (png : PngLib) (ids : ChunkIDs)
    (others : List (Nat × List Nat)) (fuel : Nat) (texture : Option Texture)
    (before rest : List Nat) (outer : List ChunkFrame) (start len : Nat)
    (name : List Nat) (version : Nat) (imageRest : List Nat)
    (hfuel : others.length + 1 ≤ fuel)
    (hothers : ∀ c ∈ others,
      c.1 ≠ ids.TextureImage ∧ c.1 < 4294967296 ∧ c.2.length < 4294967296)
    (hframe : before.length + (chunksBytes others).length < start + len)
    (hid : ids.TextureImage < 4294967296)
    (hlen : (u8string name ++ u32le version ++ imageRest).length < 4294967296)
    (hname : name.length < 256) (hversion : version < 4294967296)
    (hmismatch : version ≠ 14000) :
    TextureLoader.LoadEntity_chunks false png ids fuel
        (cursorAt before
          (chunksBytes others
            ++ (chunkBytes ids.TextureImage (u8string name ++ u32le version ++ imageRest)
              ++ rest))
          (⟨start, len⟩ :: outer)) texture
      = .error .assertionFailed := by
  obtain ⟨f, rfl⟩ : ∃ f, fuel = (f + 1) + others.length :=
    ⟨fuel - others.length - 1, by omega⟩
  rw [LoadEntity_chunks_skip false png ids others (f + 1) texture before _ outer start len
    hothers (by omega)]
  have hrem : decide ((before ++ chunksBytes others).length < start + len) = true := by
    simp only [decide_eq_true_eq, List.length_append]; omega
  rw [TextureLoader.LoadEntity_chunks]
  simp only [List.append_assoc] at hlen
  simp only [chunkBytes, List.append_assoc, ChunksRemaining_cursorAt, hrem, if_true,
    bind, Except.bind, BeginChunk_cursorAt _ _ _ _ _ hid hlen, beq_self_eq_true,
    LoadImage_version_mismatch png ids _ _ _ name version hname hversion hmismatch]

/-- C5, as the code behaves. With assertions compiled in, for every `Texture` chunk
of version 14000 whose first `TextureImage` child (after any children of other
kinds, which are skipped) has a version field other than 14000,
`TextureLoader::LoadEntity` does not return: the `assert` in `LoadImage` fails
at that child. The failure is not contained: no `EndChunk` is applied to the
child and no sibling after it is decoded, whatever follows it. -/
theorem LoadEntity_version_mismatch_aborts (png : PngLib) (ids : ChunkIDs)
    (before after : List Nat) (outer : List ChunkFrame)
    (tname tunused : List Nat) (others : List (Nat × List Nat))
    (name : List Nat) (version : Nat) (imageRest siblings : List Nat)
    (htname : tname.length < 256) (htunused : tunused.length = 32)
    (hothers : ∀ c ∈ others,
      c.1 ≠ ids.TextureImage ∧ c.1 < 4294967296 ∧ c.2.length < 4294967296)
    (hid : ids.TextureImage < 4294967296)
    (hlen : (u8string name ++ u32le version ++ imageRest).length < 4294967296)
    (hname : name.length < 256) (hversion : version < 4294967296)
    (hmismatch : version ≠ 14000) :
    TextureLoader.LoadEntity false png ids
        (enteredChunk before
          (texturePayload tname 14000 tunused
            (chunksBytes others
              ++ chunkBytes ids.TextureImage (u8string name ++ u32le version ++ imageRest)
              ++ siblings))
          after outer)
      = .error .assertionFailed := by
  unfold TextureLoader.LoadEntity enteredChunk
  rw [texturePayload_length]
  simp only [texturePayload, List.append_assoc, bind, Except.bind, pure, Except.pure,
    ReadU8String_cursorAt _ _ _ _ htname,
    ReadU32_cursorAt _ _ _ 14000 (by omega),
    Seek_cursorAt _ tunused _ _ 32 htunused, assert]
  have hge := chunksBytes_length_ge others
  have hloop := LoadEntity_chunks_version_mismatch png ids others
    ((cursorAt (before ++ (u8string tname ++ (u32le 14000 ++ tunused)))
        (chunksBytes others
          ++ (chunkBytes ids.TextureImage (u8string name ++ (u32le version ++ imageRest))
            ++ (siblings ++ after)))
        (⟨before.length, tname.length + tunused.length
          + (chunksBytes others
              ++ (chunkBytes ids.TextureImage (u8string name ++ (u32le version ++ imageRest))
                ++ siblings)).length + 5⟩ :: outer)).bytes.length + 1)
    none (before ++ (u8string tname ++ (u32le 14000 ++ tunused))) (siblings ++ after) outer
    before.length
    (tname.length + tunused.length
      + (chunksBytes others
          ++ (chunkBytes ids.TextureImage (u8string name ++ (u32le version ++ imageRest))
            ++ siblings)).length + 5)
    name version imageRest
    (by simp only [cursorAt, List.length_append]; omega) hothers
    (by
      simp only [List.length_append, u8string_length, u32le_length, chunkBytes_length]
      omega)
    hid hlen hname hversion hmismatch
  simp only [List.append_assoc] at hloop
  rw [hloop]
  simp

/-- An instance of `LoadEntity_version_mismatch_aborts`: a chunk of another kind, then a
`TextureImage` child of version 13000, then a valid `TextureImage` child. -/
theorem LoadEntity_version_mismatch_aborts_witness :
    TextureLoader.LoadEntity false samplePng sampleIds
        (enteredChunk [0, 144, 1, 0, 72, 0, 0, 0]
          (texturePayload [116] 14000 (List.replicate 32 0)
            (chunksBytes [(7, [1, 2])]
              ++ chunkBytes sampleIds.TextureImage (u8string [105] ++ u32le 13000 ++ [9, 9])
              ++ sampleImageChunk 14000 [2, 8, 1, 1, 50, 60, 70]))
          [] [])
      = .error .assertionFailed :=
  LoadEntity_version_mismatch_aborts samplePng sampleIds [0, 144, 1, 0, 72, 0, 0, 0] [] []
    [116] (List.replicate 32 0) [(7, [1, 2])] [105] 13000 [9, 9]
    (sampleImageChunk 14000 [2, 8, 1, 1, 50, 60, 70])
    (by decide) (by decide) (by decide) (by decide) (by decide) (by decide) (by decide)
    (by decide)

/-- C5, counterexample to the claim as stated. A `Texture` chunk of version 14000
has a `TextureImage` child of version 13000 followed by a valid `TextureImage`
child. With assertions compiled in, `TextureLoader::LoadEntity` fails at the first
child instead of returning the texture of the second. With `NDEBUG` defined the
version is not looked at: the mismatching child is decoded, not skipped, and
its pixels are returned. -/
theorem LoadEntity_version_mismatch_not_contained :
    TextureLoader.LoadEntity false samplePng sampleIds
        (sampleTextureFile (sampleImageChunk 13000 [2, 8, 1, 1, 50, 60, 70]
          ++ sampleImageChunk 14000 [2, 8, 1, 1, 51, 61, 71]))
      = .error .assertionFailed
    ∧ TextureLoader.LoadEntity true samplePng sampleIds
        (sampleTextureFile (sampleImageChunk 13000 [2, 8, 1, 1, 50, 60, 70]))
      = .ok (some { name := [116], width := 1, height := 1, format := .RGB8,
                    image := [50, 60, 70] },
          { bytes := (sampleTextureFile (sampleImageChunk 13000 [2, 8, 1, 1, 50, 60, 70])).bytes,
            position := 103, frames := [⟨8, 95⟩] }) :=
  ⟨rfl, rfl⟩

/-- C2, the code at a texture whose image has an unsupported colour type. The
cursor has entered a `Texture` chunk (one open frame) whose single `TextureImage`
child embeds a grayscale image. `TextureLoader::LoadEntity` returns a null
texture with two open frames: `LoadImage` opened the `TextureImageData` chunk and
returned without `EndChunk`, so the `EndChunk` of `LoadEntity` closed that frame
and the frame of the `TextureImage` chunk stays open. With a supported colour
type the same input returns with one open frame. -/
theorem LoadEntity_unsupported_colour_leaves_frame_open :
    (sampleTextureFile (sampleImageChunk 14000 [0, 8, 1, 1, 50, 60, 70])).frames = [⟨8, 95⟩]
    ∧ TextureLoader.LoadEntity false samplePng sampleIds
        (sampleTextureFile (sampleImageChunk 14000 [0, 8, 1, 1, 50, 60, 70]))
      = .ok (none,
          { bytes := (sampleTextureFile (sampleImageChunk 14000 [0, 8, 1, 1, 50, 60, 70])).bytes,
            position := 103, frames := [⟨54, 49⟩, ⟨8, 95⟩] })
    ∧ TextureLoader.LoadEntity true samplePng sampleIds
        (sampleTextureFile (sampleImageChunk 14000 [0, 8, 1, 1, 50, 60, 70]))
      = .ok (none,
          { bytes := (sampleTextureFile (sampleImageChunk 14000 [0, 8, 1, 1, 50, 60, 70])).bytes,
            position := 103, frames := [⟨54, 49⟩, ⟨8, 95⟩] })
    ∧ TextureLoader.LoadEntity false samplePng sampleIds
        (sampleTextureFile (sampleImageChunk 14000 [2, 8, 1, 1, 50, 60, 70]))
      = .ok (some { name := [116], width := 1, height := 1, format := .RGB8,
                    image := [50, 60, 70] },
          { bytes := (sampleTextureFile (sampleImageChunk 14000 [2, 8, 1, 1, 50, 60, 70])).bytes,
            position := 103, frames := [⟨8, 95⟩] }) :=
  ⟨rfl, rfl, rfl, rfl⟩

/-- Colour types on the layout without padding. The cursor has entered a `Texture`
chunk of version 14000 whose single child is a `TextureImage` chunk (version 14000,
PNG format) that ends with its one `TextureImageData` chunk, holding the PNG stream
`stream`, of which the PNG library reads the header `header`. If the colour type
of the header is none of palette, RGB and RGB-with-alpha (so for grayscale and
grayscale-with-alpha), `LoadImage` returns no texture and `LoadEntity` returns a
null result, both without failing. If it is one of the three and the library
reads the rows within the stream, `LoadImage` returns a texture, made from the
dimensions of the header and the rows read. -/
theorem LoadImage_colour_type_support (NDEBUG : Bool) (png : PngLib) (ids : ChunkIDs)
    (before after : List Nat) (outer : List ChunkFrame)
    (imageBefore : List Nat) (imageFrames : List ChunkFrame)
    (tname tunused name unused : List Nat) (hasAlpha size : Nat) (stream : List Nat) (n : Nat)
    (header : PngHeader)
    (htname : tname.length < 256) (htunused : tunused.length = 32)
    (hname : name.length < 256) (hunused : unused.length = 16)
    (hhasAlpha : hasAlpha < 4294967296) (hsize : size < 4294967296)
    (hid : ids.TextureImage < 4294967296) (hidData : ids.TextureImageData < 4294967296)
    (hlen : (imagePayload ids name 14000 unused hasAlpha 1 size stream).length < 4294967296)
    (hinfo : png.read_info (stream ++ after) = some (n, header))
    (hn : n ≤ stream.length) :
    ((header.color_type ≠ PNG_COLOR_TYPE_PALETTE ∧ header.color_type ≠ PNG_COLOR_TYPE_RGB
        ∧ header.color_type ≠ PNG_COLOR_TYPE_RGB_ALPHA) →
      (∃ file, TextureLoader.LoadImage NDEBUG png ids
          (cursorAt imageBefore
            (imagePayload ids name 14000 unused hasAlpha 1 size stream ++ after) imageFrames)
        = .ok (none, file))
      ∧ (∃ file, TextureLoader.LoadEntity NDEBUG png ids
          (enteredChunk before
            (texturePayload tname 14000 tunused
              (chunkBytes ids.TextureImage
                (imagePayload ids name 14000 unused hasAlpha 1 size stream)))
            after outer)
        = .ok (none, file)))
    ∧ ((header.color_type = PNG_COLOR_TYPE_PALETTE ∨ header.color_type = PNG_COLOR_TYPE_RGB
        ∨ header.color_type = PNG_COLOR_TYPE_RGB_ALPHA) →
      ∀ (m : Nat) (image : List Nat),
        png.read_image header (TextureLoader.LoadImage_transforms header)
          (stream.drop n ++ after) = some (m, image) →
        n + m ≤ stream.length →
        ∃ file, TextureLoader.LoadImage NDEBUG png ids
            (cursorAt imageBefore
              (imagePayload ids name 14000 unused hasAlpha 1 size stream ++ after) imageFrames)
          = .ok (some (Texture.Create header.width header.height
              (TextureLoader.LoadImage_glFormat
                (png.updated_color_type header (TextureLoader.LoadImage_transforms header)))
              image), file)) := by
  have hdata : (imageDataPayload size stream).length < 4294967296 := by
    rw [imagePayload_length] at hlen
    simp only [imageDataPayload, List.length_append, u32le_length]
    omega
  refine ⟨fun hcolor => ⟨⟨_, LoadImage_unsupported NDEBUG png ids imageBefore after imageFrames
      name unused hasAlpha size stream n header hname hunused hhasAlpha hsize hidData hdata hinfo
      hn hcolor⟩,
    ⟨_, LoadEntity_unsupported NDEBUG png ids before after outer tname tunused name unused
      hasAlpha size stream n header htname htunused hname hunused hhasAlpha hsize hid hidData
      hlen hinfo hn hcolor⟩⟩, ?_⟩
  intro hcolor m image himage hnm
  exact ⟨_, LoadImage_supported NDEBUG png ids imageBefore after imageFrames name unused hasAlpha
    size stream n m header image hname hunused hhasAlpha hsize hidData hdata hinfo hcolor himage
    hnm⟩

/-- Instances of `LoadImage_colour_type_support`: a grayscale-with-alpha image (colour
type 4) and an RGB-with-alpha image (colour type 6). -/
theorem LoadImage_colour_type_support_witness :
    ((∃ file, TextureLoader.LoadImage false samplePng sampleIds
          (cursorAt [] (imagePayload sampleIds [105] 14000 (List.replicate 16 0) 0 1 7
            [4, 8, 1, 1, 50, 60, 70] ++ []) [])
        = .ok (none, file))
      ∧ (∃ file, TextureLoader.LoadEntity false samplePng sampleIds
          (enteredChunk [0, 144, 1, 0, 95, 0, 0, 0]
            (texturePayload [116] 14000 (List.replicate 32 0)
              (chunkBytes sampleIds.TextureImage
                (imagePayload sampleIds [105] 14000 (List.replicate 16 0) 0 1 7
                  [4, 8, 1, 1, 50, 60, 70])))
            [] [])
        = .ok (none, file)))
    ∧ (∃ file, TextureLoader.LoadImage false samplePng sampleIds
          (cursorAt [] (imagePayload sampleIds [105] 14000 (List.replicate 16 0) 0 1 8
            [6, 8, 1, 1, 50, 60, 70, 80] ++ []) [])
        = .ok (some (Texture.Create 1 1 .RGBA8 [50, 60, 70, 80]), file)) :=
  ⟨(LoadImage_colour_type_support false samplePng sampleIds [0, 144, 1, 0, 95, 0, 0, 0] [] []
      [] [] [116] (List.replicate 32 0) [105] (List.replicate 16 0) 0 7
      [4, 8, 1, 1, 50, 60, 70] 4 ⟨1, 1, 8, 4, false⟩
      (by decide) (by decide) (by decide) (by decide) (by decide) (by decide) (by decide)
      (by decide) (by decide) rfl (by decide)).1 (by decide),
   (LoadImage_colour_type_support false samplePng sampleIds [] [] [] [] []
      [116] (List.replicate 32 0) [105] (List.replicate 16 0) 0 8
      [6, 8, 1, 1, 50, 60, 70, 80] 4 ⟨1, 1, 8, 6, false⟩
      (by decide) (by decide) (by decide) (by decide) (by decide) (by decide) (by decide)
      (by decide) (by decide) rfl (by decide)).2 (by decide) 4 [50, 60, 70, 80] rfl
      (by decide)⟩

/-- C6, the code at a grayscale image in a `TextureImage` chunk with one byte of
padding. The cursor has entered a `Texture` chunk whose single `TextureImage`
child holds a `TextureImageData` chunk with a grayscale image, followed by one
more byte inside the `TextureImage` chunk. `LoadImage` returns no texture, with
the frame of the `TextureImageData` chunk still open. `LoadEntity` does not
return null: its `EndChunk` closes that frame, the loop condition is then taken
against the `TextureImage` chunk, which has a byte left, and reading a chunk
header there fails, with assertions compiled in or not. The same chunk with an
RGB image loads a texture. -/
theorem LoadEntity_unsupported_colour_fails_on_padded_chunk :
    TextureLoader.LoadImage false samplePng sampleIds
        { bytes := (sampleTextureFile
            (samplePaddedImageChunk 14000 [0, 8, 1, 1, 50, 60, 70] [0])).bytes,
          position := 54, frames := [⟨54, 50⟩, ⟨8, 96⟩] }
      = .ok (none,
          { bytes := (sampleTextureFile
              (samplePaddedImageChunk 14000 [0, 8, 1, 1, 50, 60, 70] [0])).bytes,
            position := 100, frames := [⟨92, 11⟩, ⟨54, 50⟩, ⟨8, 96⟩] })
    ∧ TextureLoader.LoadEntity false samplePng sampleIds
        (sampleTextureFile (samplePaddedImageChunk 14000 [0, 8, 1, 1, 50, 60, 70] [0]))
      = .error .truncatedInput
    ∧ TextureLoader.LoadEntity true samplePng sampleIds
        (sampleTextureFile (samplePaddedImageChunk 14000 [0, 8, 1, 1, 50, 60, 70] [0]))
      = .error .truncatedInput
    ∧ TextureLoader.LoadEntity false samplePng sampleIds
        (sampleTextureFile (samplePaddedImageChunk 14000 [2, 8, 1, 1, 50, 60, 70] [0]))
      = .ok (some { name := [116], width := 1, height := 1, format := .RGB8,
                    image := [50, 60, 70] },
          { bytes := (sampleTextureFile
              (samplePaddedImageChunk 14000 [2, 8, 1, 1, 50, 60, 70] [0])).bytes,
            position := 104, frames := [⟨8, 96⟩] }) :=
  ⟨rfl, rfl, rfl, rfl⟩

/-! ### The iteration budget of `LoadEntity` is never used up -/

theorem Advances_bind {α β : Type} (file : ChunkFile) (r : Except Err (α × ChunkFile))
    (k : α × ChunkFile → Except Err (β × ChunkFile)) (hr : Advances file r)
    (hk : ∀ a g, r = .ok (a, g) → Advances g (k (a, g))) :
    Advances file (r >>= k) := by
  cases r with
  | error e => exact hr
  | ok p =>
    obtain ⟨a, g⟩ := p
    have h := hk a g rfl
    simp only [Advances] at hr
    show Advances file (k (a, g))
    cases hkr : k (a, g) with
    | error e => rw [hkr] at h; exact h
    | ok q =>
      obtain ⟨b, g2⟩ := q
      rw [hkr] at h
      simp only [Advances] at h ⊢
      exact ⟨h.1.trans hr.1, Nat.le_trans hr.2 h.2⟩

theorem Advances_bind_file {β : Type} (file : ChunkFile) (r : Except Err ChunkFile)
    (k : ChunkFile → Except Err (β × ChunkFile))
    (hr : Advances file (r >>= fun g => pure ((), g)))
    (hk : ∀ g, r = .ok g → Advances g (k g)) :
    Advances file (r >>= k) := by
  cases r with
  | error e => exact hr
  | ok g =>
    have h := hk g rfl
    have hr : g.bytes = file.bytes ∧ file.position ≤ g.position := hr
    show Advances file (k g)
    cases hkr : k g with
    | error e => rw [hkr] at h; exact h
    | ok q =>
      obtain ⟨b, g2⟩ := q
      rw [hkr] at h
      simp only [Advances] at h ⊢
      exact ⟨h.1.trans hr.1, Nat.le_trans hr.2 h.2⟩

theorem Advances_assert {β : Type} (file : ChunkFile) (NDEBUG cond : Bool)
    (k : Unit → Except Err (β × ChunkFile)) (hk : Advances file (k ())) :
    Advances file (assert NDEBUG cond >>= k) := by
  unfold assert
  split
  · exact hk
  · show Err.assertionFailed ≠ Err.outOfFuel
    decide

theorem ReadBytes_Advances (file : ChunkFile) (n : Nat) : Advances file (file.ReadBytes n) := by
  unfold ChunkFile.ReadBytes
  split
  · exact ⟨rfl, Nat.le_add_right _ _⟩
  · show Err.truncatedInput ≠ Err.outOfFuel
    decide

theorem ReadU32_Advances (file : ChunkFile) : Advances file file.ReadU32 := by
  have h := ReadBytes_Advances file 4
  unfold ChunkFile.ReadU32
  cases hr : file.ReadBytes 4 with
  | error e => rw [hr] at h; exact h
  | ok p => obtain ⟨b, g⟩ := p; rw [hr] at h; exact h

theorem ReadU8String_Advances (file : ChunkFile) : Advances file file.ReadU8String := by
  have h := ReadBytes_Advances file 1
  unfold ChunkFile.ReadU8String
  cases hr : file.ReadBytes 1 with
  | error e => rw [hr] at h; exact h
  | ok p =>
    obtain ⟨b, g⟩ := p
    rw [hr] at h
    have h2 := ReadBytes_Advances g (b.getD 0 0 % 256)
    show Advances file (g.ReadBytes (b.getD 0 0 % 256))
    cases hr2 : g.ReadBytes (b.getD 0 0 % 256) with
    | error e => rw [hr2] at h2; exact h2
    | ok q =>
      obtain ⟨s, g2⟩ := q
      rw [hr2] at h2
      simp only [Advances] at h h2 ⊢
      exact ⟨h2.1.trans h.1, Nat.le_trans h.2 h2.2⟩

theorem Seek_Advances (file : ChunkFile) (n : Nat) :
    Advances file (file.Seek n >>= fun g => pure ((), g)) := by
  unfold ChunkFile.Seek
  split
  · exact ⟨rfl, Nat.le_add_right _ _⟩
  · show Err.invalidSeek ≠ Err.outOfFuel
    decide

theorem EndChunk_Advances (file : ChunkFile) :
    Advances file (file.EndChunk >>= fun g => pure ((), g)) := by
  unfold ChunkFile.EndChunk
  split
  · show Err.emptyFrameStack ≠ Err.outOfFuel
    decide
  · split
    · show Err.chunkOverrun ≠ Err.outOfFuel
      decide
    · split
      · show Err.invalidSeek ≠ Err.outOfFuel
        decide
      · exact ⟨rfl, by simp only; omega⟩

theorem EndChunk_bounded (file g : ChunkFile) (h : file.EndChunk = .ok g) :
    g.bytes = file.bytes ∧ file.position ≤ g.position ∧ g.position ≤ g.bytes.length := by
  unfold ChunkFile.EndChunk at h
  split at h
  · simp at h
  · split at h
    · simp at h
    · split at h
      · simp at h
      · injection h with h
        subst h
        exact ⟨rfl, by simp only; omega, by simp only; omega⟩

theorem BeginChunk_Advances (file : ChunkFile) : Advances file file.BeginChunk := by
  have h1 := ReadU32_Advances file
  unfold ChunkFile.BeginChunk
  cases hr : file.ReadU32 with
  | error e => rw [hr] at h1; exact h1
  | ok p =>
    obtain ⟨tag, g⟩ := p
    rw [hr] at h1
    have h2 := ReadU32_Advances g
    show Advances file (match g.ReadU32 with
      | .error e => .error e
      | .ok (declaredLength, file) =>
        .ok (tag, { file with frames := ⟨file.position, declaredLength⟩ :: file.frames }))
    cases hr2 : g.ReadU32 with
    | error e => rw [hr2] at h2; exact h2
    | ok q =>
      obtain ⟨len, g2⟩ := q
      rw [hr2] at h2
      simp only [Advances] at h1 h2 ⊢
      exact ⟨h2.1.trans h1.1, Nat.le_trans h1.2 h2.2⟩

theorem BeginChunk_moves (file g : ChunkFile) (tag : Nat) (h : file.BeginChunk = .ok (tag, g)) :
    file.position < g.position := by
  unfold ChunkFile.BeginChunk ChunkFile.ReadU32 ChunkFile.ReadBytes at h
  split at h
  · simp at h
  · rename_i tag1 f1 h1
    split at h1
    · simp at h1
    · rename_i b1 f1b hb1
      split at hb1
      · injection hb1 with hb1
        injection h1 with h1
        simp only [Prod.mk.injEq] at hb1 h1
        obtain ⟨_, rfl⟩ := hb1
        obtain ⟨_, rfl⟩ := h1
        split at h
        · simp at h
        · rename_i len f2 h2
          split at h2
          · simp at h2
          · rename_i b2 f2b hb2
            split at hb2
            · injection hb2 with hb2
              injection h2 with h2
              simp only [Prod.mk.injEq] at hb2 h2
              obtain ⟨_, rfl⟩ := hb2
              obtain ⟨_, rfl⟩ := h2
              injection h with h
              simp only [Prod.mk.injEq] at h
              obtain ⟨_, rfl⟩ := h
              simp only
              omega
            · simp at hb2
      · simp at hb1

theorem pngRead_Advances {α : Type} (reader : List Nat → Option (Nat × α)) (file : ChunkFile) :
    Advances file (pngRead reader file) := by
  unfold pngRead
  split
  · show Err.pngLongjmp ≠ Err.outOfFuel
    decide
  · rename_i consumed a _
    have h := ReadBytes_Advances file consumed
    cases hr : file.ReadBytes consumed with
    | error e => rw [hr] at h; exact h
    | ok p => obtain ⟨b, g⟩ := p; rw [hr] at h; exact h

theorem LoadImage_Advances (NDEBUG : Bool) (png : PngLib) (ids : ChunkIDs) (file : ChunkFile) :
    Advances file (TextureLoader.LoadImage NDEBUG png ids file) := by
  unfold TextureLoader.LoadImage
  refine Advances_bind _ _ _ (ReadU8String_Advances _) (fun _ f1 _ => ?_)
  refine Advances_bind _ _ _ (ReadU32_Advances _) (fun version f2 _ => ?_)
  refine Advances_assert _ _ _ _ ?_
  refine Advances_bind_file _ _ _ (Seek_Advances _ _) (fun f3 _ => ?_)
  refine Advances_bind _ _ _ (ReadU32_Advances _) (fun hasAlphaWord f4 _ => ?_)
  refine Advances_bind _ _ _ (ReadU32_Advances _) (fun format f5 _ => ?_)
  refine Advances_assert _ _ _ _ ?_
  refine Advances_bind _ _ _ (BeginChunk_Advances _) (fun chunkID f6 _ => ?_)
  refine Advances_assert _ _ _ _ ?_
  refine Advances_bind _ _ _ (ReadU32_Advances _) (fun size f7 _ => ?_)
  refine Advances_bind _ _ _ (pngRead_Advances _ _) (fun header f8 _ => ?_)
  simp only []
  split
  · exact ⟨rfl, Nat.le_refl _⟩
  · refine Advances_bind _ _ _ (pngRead_Advances _ _) (fun image f9 _ => ?_)
    refine Advances_bind_file _ _ _ (EndChunk_Advances _) (fun f10 _ => ?_)
    exact ⟨rfl, Nat.le_refl _⟩

theorem Advances_ok {α : Type} (file g : ChunkFile) (a : α)
    (r : Except Err (α × ChunkFile)) (hr : Advances file r) (h : r = .ok (a, g)) :
    g.bytes = file.bytes ∧ file.position ≤ g.position := by
  subst h
  exact hr

theorem LoadEntity_chunks_Advances (NDEBUG : Bool) (png : PngLib) (ids : ChunkIDs)
    (fuel : Nat) (file : ChunkFile) (texture : Option Texture)
    (hfuel : 1 ≤ fuel) (hroom : file.bytes.length + 1 ≤ file.position + fuel) :
    Advances file (TextureLoader.LoadEntity_chunks NDEBUG png ids fuel file texture) := by
  induction fuel generalizing file texture with
  | zero => omega
  | succ fuel ih =>
    unfold TextureLoader.LoadEntity_chunks
    split
    · refine Advances_bind _ _ _ (BeginChunk_Advances _) (fun chunkID f1 h1 => ?_)
      have hmove := BeginChunk_moves file f1 chunkID h1
      have hb1 := (Advances_ok file f1 chunkID _ (BeginChunk_Advances file) h1).1
      have hrest : ∀ (t : Option Texture) (f2 : ChunkFile), f2.bytes = f1.bytes →
          f1.position ≤ f2.position →
          Advances f2 (f2.EndChunk >>= fun f3 =>
            TextureLoader.LoadEntity_chunks NDEBUG png ids fuel f3 t) := by
        intro t f2 hbytes hpos
        refine Advances_bind_file _ _ _ (EndChunk_Advances _) (fun f3 h3 => ?_)
        have hf3 := EndChunk_bounded f2 f3 h3
        have hlen : f3.bytes.length = file.bytes.length := by
          rw [hf3.1, hbytes, hb1]
        exact ih f3 t (by omega) (by omega)
      simp only []
      split
      · have hinner := LoadImage_Advances NDEBUG png ids f1
        refine Advances_bind _ _ _ hinner (fun t f2 h2 => ?_)
        have hf2 := Advances_ok f1 f2 t _ hinner h2
        exact hrest t f2 hf2.1 hf2.2
      · exact hrest texture f1 rfl (Nat.le_refl _)
    · exact ⟨rfl, Nat.le_refl _⟩

/-- The iteration budget in the model of `TextureLoader::LoadEntity` is never used
up: whatever the input, the model ends with a result, with a failure of the code
or at a jump of the PNG library. When it returns, the stream is unchanged and the
cursor has not moved back. -/
theorem LoadEntity_Advances (NDEBUG : Bool) (png : PngLib) (ids : ChunkIDs)
    (file : ChunkFile) :
    Advances file (TextureLoader.LoadEntity NDEBUG png ids file) := by
  unfold TextureLoader.LoadEntity
  refine Advances_bind _ _ _ (ReadU8String_Advances _) (fun name f1 _ => ?_)
  refine Advances_bind _ _ _ (ReadU32_Advances _) (fun version f2 _ => ?_)
  refine Advances_assert _ _ _ _ ?_
  refine Advances_bind_file _ _ _ (Seek_Advances _ _) (fun f3 _ => ?_)
  refine Advances_bind _ _ _
    (LoadEntity_chunks_Advances NDEBUG png ids _ f3 none (by omega) (by omega))
    (fun texture f4 _ => ?_)
  exact ⟨rfl, Nat.le_refl _⟩

theorem LoadEntity_never_outOfFuel (NDEBUG : Bool) (png : PngLib) (ids : ChunkIDs)
    (file : ChunkFile) :
    TextureLoader.LoadEntity NDEBUG png ids file ≠ .error .outOfFuel := by
  have h := LoadEntity_Advances NDEBUG png ids file
  intro hbad
  rw [hbad] at h
  exact h rfl

end Donut
